import Mathlib

/-
  Verification development for the OJS conformance test engine.

  The Go sources are shallowly embedded below.  Conventions used throughout:

  * Go `any` values decoded from JSON (`encoding/json` with `interface` targets)
    are modelled by the inductive `Json`: nil interface = `Json.null`,
    `bool` = `Json.bool`, `float64` = `Json.num` (see next point),
    `string` = `Json.str`, `[]any` = `Json.arr`, `map[string]any` = `Json.obj`.
  * Go `float64` arithmetic is modelled over exact rationals.  All concrete
    inputs appearing in theorems below are small decimal values on which the
    Go float64 computations are exact, so the modelling is faithful there.
  * `json.Unmarshal` of the literal `null` into a Go value succeeds and leaves
    the zero value; the `...Z` decode helpers reproduce this.
  * Go strings are manipulated through their character lists so that proofs
    can proceed by list induction.
-/

namespace OJS

/-- Dynamic JSON value, as decoded by Go encoding/json into `any`. -/
inductive Json where
  | null : Json
  | bool (b : Bool) : Json
  | num (q : ℚ) : Json
  | str (s : String) : Json
  | arr (elems : List Json) : Json
  | obj (fields : List (String × Json)) : Json
deriving Repr

/-- First-match lookup in a decoded object (Go map lookup; decoded maps have
no duplicate keys). -/
def lookupField : List (String × Json) → String → Option Json
  | [], _ => none
  | (k, v) :: rest, key => if key = k then some v else lookupField rest key

/-- Go `obj[field]` map read: zero value (nil interface) when missing. -/
def mapRead (fields : List (String × Json)) (key : String) : Json :=
  (lookupField fields key).getD Json.null

/-- `json.Unmarshal` into `string`: succeeds for a JSON string, and for JSON
`null` (zero value `""`). -/
def asStrZ : Json → Option String
  | .str s => some s
  | .null => some ""
  | _ => none

/-- `json.Unmarshal` into `float64`: succeeds for a JSON number, and for JSON
`null` (zero value `0`). -/
def asNumZ : Json → Option ℚ
  | .num q => some q
  | .null => some 0
  | _ => none

/-- `json.Unmarshal` into `bool`: succeeds for a JSON boolean, and for JSON
`null` (zero value `false`). -/
def asBoolZ : Json → Option Bool
  | .bool b => some b
  | .null => some false
  | _ => none

/-- `json.Unmarshal` into `[]json.RawMessage`: succeeds for a JSON array, and
for JSON `null` (zero value: nil slice). -/
def asArrZ : Json → Option (List Json)
  | .arr xs => some xs
  | .null => some []
  | _ => none

/-- `json.Unmarshal` into `map[string]json.RawMessage`: succeeds for a JSON
object, and for JSON `null` (zero value: nil map). -/
def asObjZ : Json → Option (List (String × Json))
  | .obj fs => some fs
  | .null => some []
  | _ => none

/-- `json.Unmarshal` into `int`: succeeds for a JSON number written without
fraction (modelled: an integral rational), and for JSON `null` (zero value). -/
def asIntZ : Json → Option Int
  | .num q => if q.den = 1 then some q.num else none
  | .null => some 0
  | _ => none

/-- lib.toFloat64 (assertions file): a decoded JSON value is numeric iff it is
a `float64`; the other Go numeric branches never occur for decoded values. -/
def toFloat64 : Json → Option ℚ
  | .num q => some q
  | _ => none

/-- The Go test `v != nil` on a decoded value (nil interface check). -/
def isNullJ : Json → Bool
  | .null => true
  | _ => false

/-- lib.jsonType. -/
def jsonType : Json → String
  | .str _ => "string"
  | .num _ => "number"
  | .bool _ => "boolean"
  | .null => "null"
  | .arr _ => "array"
  | .obj _ => "object"

/-! ## Character-list string utilities (Go strings package) -/

/-- strings.HasPrefix: `isPreL p s` is true iff `p` is a prefix of `s`. -/
def isPreL : List Char → List Char → Bool
  | [], _ => true
  | _ :: _, [] => false
  | p :: ps, c :: cs => p == c && isPreL ps cs

/-- strings.HasSuffix. -/
def isSufL (p s : List Char) : Bool :=
  isPreL p.reverse s.reverse

/-- strings.Index for a single character: index of first occurrence. -/
def idxOfChar (c : Char) : List Char → Option Nat
  | [] => none
  | x :: xs =>
      if x == c then some 0
      else match idxOfChar c xs with
        | some n => some (n + 1)
        | none => none

/-- strings.Index for a substring: index of first occurrence. -/
def idxOfSub (sub : List Char) : List Char → Option Nat
  | [] => if sub.isEmpty then some 0 else none
  | x :: xs =>
      if isPreL sub (x :: xs) then some 0
      else match idxOfSub sub xs with
        | some n => some (n + 1)
        | none => none

/-- strings.Contains. -/
def containsSub (s sub : List Char) : Bool :=
  (idxOfSub sub s).isSome

/-- strings.TrimLeft over a cutset. -/
def trimLeftCut (cut : List Char) : List Char → List Char
  | [] => []
  | c :: cs => if cut.contains c then trimLeftCut cut cs else c :: cs

/-- strings.Trim over a cutset (both ends). -/
def trimCut (cut : List Char) (s : List Char) : List Char :=
  ((trimLeftCut cut ((trimLeftCut cut s).reverse)).reverse)

/-- strings.TrimSpace (Go space class: the usual ASCII whitespace). -/
def goTrimSpace (s : List Char) : List Char :=
  trimCut [' ', '\t', '\n', '\x0b', '\x0c', '\r'] s

/-- Split a list on a separator character (strings.Split). -/
def splitOnChar (sep : Char) : List Char → List (List Char)
  | [] => [[]]
  | c :: cs =>
      let rest := splitOnChar sep cs
      if c == sep then [] :: rest
      else match rest with
        | r :: rs => (c :: r) :: rs
        | [] => [[c]]

def isDigitChar (c : Char) : Bool :=
  '0' ≤ c && c ≤ '9'

/-- Digits to a natural number; `none` if empty or a non-digit occurs. -/
def digitsToNat : List Char → Option Nat
  | [] => none
  | cs =>
      if cs.all isDigitChar then
        some (cs.foldl (fun acc c => acc * 10 + (c.toNat - '0'.toNat)) 0)
      else none

/-- strconv.Atoi: optional sign, then decimal digits.  (Overflow of the
machine int is not modelled; no in-scope input approaches it.) -/
def goAtoi : List Char → Option Int
  | [] => none
  | '+' :: cs => (digitsToNat cs).map Int.ofNat
  | '-' :: cs => (digitsToNat cs).map (fun n => -(Int.ofNat n))
  | cs => (digitsToNat cs).map Int.ofNat

/-- Fraction digits to an exact rational in [0,1). -/
def fracToRat (cs : List Char) : ℚ :=
  (cs.reverse.foldr (fun c acc => (acc + ((c.toNat - '0'.toNat : ℕ) : ℚ)) / 10) 0)

/-- strconv.ParseFloat restricted to plain decimal literals
`[+-]?digits[.digits]` (the shapes produced by the in-repo regex captures).
Modelled exactly over rationals; Go would round to the nearest float64. -/
def goParseFloatQ (s : List Char) : Option ℚ :=
  let signVal : List Char → Option ℚ := fun cs =>
    match idxOfChar '.' cs with
    | none => (digitsToNat cs).map (fun n => (n : ℚ))
    | some i =>
        let intPart := cs.take i
        let fracPart := cs.drop (i + 1)
        match digitsToNat intPart, digitsToNat fracPart with
        | some n, some _ =>
            if fracPart.all isDigitChar && fracPart.length > 0 then
              some ((n : ℚ) + fracToRat fracPart)
            else none
        | _, _ => none
  match s with
  | '+' :: cs => signVal cs
  | '-' :: cs => (signVal cs).map Neg.neg
  | cs => signVal cs

/-- math.Abs. -/
def goAbsQ (q : ℚ) : ℚ := if q < 0 then -q else q

/-- math.Max (the NaN handling of the Go function cannot arise here). -/
def goMaxQ (a b : ℚ) : ℚ := if a < b then b else a

/-! ## Compiled regular expressions of the assertions file

The in-repo patterns are literals; each is translated to an explicit
recognizer.  Arbitrary user-supplied patterns (string:pattern, $match) go
through the Go regexp package, modelled by the `GoRegex` parameter below. -/

/-- Model of the Go regexp package: compile a pattern to a matcher, or fail. -/
def GoRegex : Type := String → Option (String → Bool)

def isHexLower (c : Char) : Bool :=
  ('0' ≤ c && c ≤ '9') || ('a' ≤ c && c ≤ 'f')

/-- Consume exactly `n` characters satisfying `p`; return the rest. -/
def consumeN (p : Char → Bool) : Nat → List Char → Option (List Char)
  | 0, cs => some cs
  | n + 1, c :: cs => if p c then consumeN p n cs else none
  | _ + 1, [] => none

/-- Consume one expected character. -/
def consumeChar (c : Char) : List Char → Option (List Char)
  | x :: xs => if x == c then some xs else none
  | [] => none

/-- Consume a literal. -/
def consumeLit : List Char → List Char → Option (List Char)
  | [], cs => some cs
  | l :: ls, c :: cs => if l == c then consumeLit ls cs else none
  | _ :: _, [] => none

/-- A maximal nonempty run of characters satisfying `p`: captured run and rest. -/
def captureRun (p : Char → Bool) : List Char → Option (List Char × List Char)
  | [] => none
  | c :: cs =>
      if p c then
        match captureRun p cs with
        | some (run, rest) => some (c :: run, rest)
        | none => some ([c], cs)
      else none

/-- uuidPattern: eight, four, four, four, twelve lowercase hex groups. -/
def uuidMatch (s : List Char) : Bool :=
  (do
    let r ← consumeN isHexLower 8 s
    let r ← consumeChar '-' r
    let r ← consumeN isHexLower 4 r
    let r ← consumeChar '-' r
    let r ← consumeN isHexLower 4 r
    let r ← consumeChar '-' r
    let r ← consumeN isHexLower 4 r
    let r ← consumeChar '-' r
    let r ← consumeN isHexLower 12 r
    if r.isEmpty then some () else none).isSome

/-- uuidV7Pattern: as uuidMatch with version nibble 7 and variant in 8..b. -/
def uuidV7Match (s : List Char) : Bool :=
  (do
    let r ← consumeN isHexLower 8 s
    let r ← consumeChar '-' r
    let r ← consumeN isHexLower 4 r
    let r ← consumeChar '-' r
    let r ← consumeChar '7' r
    let r ← consumeN isHexLower 3 r
    let r ← consumeChar '-' r
    let r ← (match r with
      | c :: rest => if c == '8' || c == '9' || c == 'a' || c == 'b' then some rest else none
      | [] => none)
    let r ← consumeN isHexLower 3 r
    let r ← consumeChar '-' r
    let r ← consumeN isHexLower 12 r
    if r.isEmpty then some () else none).isSome

/-- datetimePattern (simplified RFC 3339 shape used by the source). -/
def datetimeMatch (s : List Char) : Bool :=
  (do
    let r ← consumeN isDigitChar 4 s
    let r ← consumeChar '-' r
    let r ← consumeN isDigitChar 2 r
    let r ← consumeChar '-' r
    let r ← consumeN isDigitChar 2 r
    let r ← consumeChar 'T' r
    let r ← consumeN isDigitChar 2 r
    let r ← consumeChar ':' r
    let r ← consumeN isDigitChar 2 r
    let r ← consumeChar ':' r
    let r ← consumeN isDigitChar 2 r
    let r ← (match r with
      | '.' :: rest =>
          match captureRun isDigitChar rest with
          | some (_, rest2) => some rest2
          | none => none
      | other => some other)
    match r with
    | ['Z'] => some ()
    | c :: rest =>
        if c == '+' || c == '-' then do
          let r2 ← consumeN isDigitChar 2 rest
          let r2 ← consumeChar ':' r2
          let r2 ← consumeN isDigitChar 2 r2
          if r2.isEmpty then some () else none
        else none
    | [] => none).isSome

/-- A number literal `-?digits(.digits)?` as in the range capture groups:
captured text and rest. -/
def captureNumLit (s : List Char) : Option (List Char × List Char) :=
  let core : List Char → Option (List Char × List Char) := fun cs => do
    let (intRun, rest) ← captureRun isDigitChar cs
    match rest with
    | '.' :: rest2 =>
        match captureRun isDigitChar rest2 with
        | some (fracRun, rest3) => some (intRun ++ '.' :: fracRun, rest3)
        | none => some (intRun, rest)
    | _ => some (intRun, rest)
  match s with
  | '-' :: cs => (core cs).map (fun (cap, rest) => ('-' :: cap, rest))
  | cs => core cs

/-- rangePattern: number:range(a, b) with optional spaces after the comma;
returns the two ParseFloat captures. -/
def rangeCapture (s : List Char) : Option (ℚ × ℚ) := do
  let r ← consumeLit "number:range(".data s
  let (cap1, r) ← captureNumLit r
  let r ← consumeChar ',' r
  let r := trimLeftCut [' ', '\t', '\n', '\x0b', '\x0c', '\r'] r
  let (cap2, r) ← captureNumLit r
  let r ← consumeChar ')' r
  if r.isEmpty then
    match goParseFloatQ cap1, goParseFloatQ cap2 with
    | some lo, some hi => some (lo, hi)
    | _, _ => none
  else none

/-- lengthPattern: array:length(N). -/
def lengthCapture (s : List Char) : Option Nat := do
  let r ← consumeLit "array:length(".data s
  let (cap, r) ← captureRun isDigitChar r
  let r ← consumeChar ')' r
  if r.isEmpty then digitsToNat cap else none

/-- approxPattern: a tilde followed by digits with an optional fraction. -/
def approxCapture (s : List Char) : Option ℚ := do
  let r ← consumeChar '~' s
  let (intRun, r) ← captureRun isDigitChar r
  let (cap, r) ← (match r with
    | '.' :: rest =>
        match captureRun isDigitChar rest with
        | some (fracRun, rest2) => some (intRun ++ '.' :: fracRun, rest2)
        | none => some (intRun, r)
    | _ => some (intRun, r))
  if r.isEmpty then goParseFloatQ cap else none

/-- fmt.Sprintf with the %v verb on a decoded JSON value.  Strings render
as themselves, integral numbers in base ten; non-integral numbers and
composites are approximated (no in-scope theorem depends on them). -/
def goSprintV : Json → String
  | .null => "<nil>"
  | .bool b => if b then "true" else "false"
  | .str s => s
  | .num q => if q.den = 1 then toString q.num else toString q
  | .arr xs => "[" ++ String.intercalate " " (xs.attach.map (fun it => goSprintV it.1)) ++ "]"
  | .obj fs =>
      "map[" ++
        String.intercalate " " (fs.attach.map (fun kv => kv.1.1 ++ ":" ++ goSprintV kv.1.2)) ++
        "]"
decreasing_by
  · have := List.sizeOf_lt_of_mem it.2
    simp_wf <;> omega
  · have h1 := List.sizeOf_lt_of_mem kv.2
    have : sizeOf kv.1.2 ≤ sizeOf kv.1 := by
      cases kv.1 with | mk a b => simp only [Prod.mk.sizeOf_spec]; omega
    simp_wf <;> omega

/-! ## Matcher evaluator (lib assertions file) -/

/-- DefaultTimingTolerancePct. -/
def DefaultTimingTolerancePct : ℚ := 50

/-- matchStringAssertion: the string-matcher dispatch.  The Go switch and the
subsequent prefix/regex checks are translated in source order.  `rx` models
the Go regexp package (used only by the string:pattern branch). -/
def matchStringAssertion (rx : GoRegex) (matcher : String) (actual : Json) :
    Except String Unit :=
  let m := matcher.data
  if m = "any".data then
    -- Field must exist (any value is fine): the source returns nil at once
    .ok ()
  else if m = "absent".data then
    match actual with
    | .null => .ok ()
    | _ => .error "expected field to be absent, but got a value"
  else if m = "exists".data then
    match actual with
    | .null => .error "expected field to exist, but it is missing"
    | _ => .ok ()
  else if m = "string:nonempty".data ∨ m = "string:non_empty".data then
    match actual with
    | .str s => if s = "" then .error "expected non-empty string, got empty string" else .ok ()
    | _ => .error "expected non-empty string"
  else if m = "string:uuid".data then
    match actual with
    | .str s => if uuidMatch s.data then .ok () else .error "expected valid UUID"
    | _ => .error "expected UUID string"
  else if m = "string:uuidv7".data then
    match actual with
    | .str s => if uuidV7Match s.data then .ok () else .error "expected valid UUIDv7"
    | _ => .error "expected UUIDv7 string"
  else if m = "string:datetime".data then
    match actual with
    | .str s => if datetimeMatch s.data then .ok () else .error "expected RFC 3339 datetime"
    | _ => .error "expected datetime string"
  else if m = "number:positive".data then
    match toFloat64 actual with
    | some n => if n ≤ 0 then .error "expected positive number" else .ok ()
    | none => .error "expected positive number, got non-number"
  else if m = "number:non_negative".data then
    match toFloat64 actual with
    | some n => if n < 0 then .error "expected non-negative number" else .ok ()
    | none => .error "expected non-negative number, got non-number"
  else if m = "array:nonempty".data then
    match actual with
    | .arr xs => if xs.length = 0 then .error "expected non-empty array, got empty array" else .ok ()
    | _ => .error "expected non-empty array"
  else if m = "array:empty".data then
    match actual with
    | .arr xs => if xs.length ≠ 0 then .error "expected empty array" else .ok ()
    | _ => .error "expected empty array, got non-array"
  else if isPreL "array:min_length:".data m then
    let nStr := m.drop "array:min_length:".length
    match goAtoi nStr with
    | none => .error "invalid array:min_length value"
    | some n =>
        match actual with
        | .arr xs => if (xs.length : Int) < n then .error "expected array with min length" else .ok ()
        | _ => .error "expected array with min length, got non-array"
  else if isPreL "array:min:".data m then
    let nStr := m.drop "array:min:".length
    match goAtoi nStr with
    | none => .error "invalid array:min value"
    | some n =>
        match actual with
        | .arr xs => if (xs.length : Int) < n then .error "expected array with at least n elements" else .ok ()
        | _ => .error "expected array with at least n elements, got non-array"
  else if isPreL "array:length:".data m then
    let nStr := m.drop "array:length:".length
    match goAtoi nStr with
    | none => .error "invalid array:length value"
    | some n =>
        match actual with
        | .arr xs => if (xs.length : Int) ≠ n then .error "expected array of given length" else .ok ()
        | _ => .error "expected array of given length, got non-array"
  else if isPreL "contains:".data m then
    let target := String.mk (m.drop "contains:".length)
    match actual with
    | .arr xs =>
        if xs.any (fun it => goSprintV it = target) then .ok ()
        else .error "expected array to contain value, but it was not found"
    | _ => .error "expected array for contains check"
  else if isPreL "not_contains:".data m then
    let target := String.mk (m.drop "not_contains:".length)
    match actual with
    | .arr xs =>
        if xs.any (fun it => goSprintV it = target) then
          .error "expected array to not contain value, but it was found"
        else .ok ()
    | _ => .error "expected array for not_contains check"
  else if isPreL "string:contains:".data m then
    let substr := m.drop "string:contains:".length
    match actual with
    | .str s => if containsSub s.data substr then .ok () else .error "expected string containing substring"
    | _ => .error "expected string containing substring, got non-string"
  else
    match rangeCapture m with
    | some (lo, hi) =>
        (match toFloat64 actual with
        | some n => if n < lo ∨ n > hi then .error "expected number in range" else .ok ()
        | none => .error "expected number in range, got non-number")
    | none =>
    match lengthCapture m with
    | some expectedLen =>
        (match actual with
        | .arr xs => if xs.length ≠ expectedLen then .error "expected array of length" else .ok ()
        | _ => .error "expected array of length, got non-array")
    | none =>
    match approxCapture m with
    | some expected =>
        (match toFloat64 actual with
        | some n =>
            let tolerance := expected * DefaultTimingTolerancePct / 100
            if goAbsQ (n - expected) > tolerance then .error "approximate mismatch"
            else .ok ()
        | none => .error "expected approximate number, got non-number")
    | none =>
    if isPreL "string:pattern(".data m ∧ isSufL ")".data m then
      let pat := String.mk ((m.drop "string:pattern(".length).dropLast)
      match actual with
      | .str s =>
          (match rx pat with
          | none => .error "invalid regex pattern"
          | some f => if f s then .ok () else .error "expected string matching pattern")
      | _ => .error "expected string matching pattern, got non-string"
    else
      -- Literal string comparison
      match actual with
      | .str s => if s = matcher then .ok () else .error "string mismatch"
      | _ => .error "expected string, got non-string"

/-- matchNumberAssertion. -/
def matchNumberAssertion (expected : ℚ) (actual : Json) : Except String Unit :=
  match toFloat64 actual with
  | none => .error "expected number, got non-number"
  | some n =>
      -- for integers, compare exactly (int64 conversions of integral floats)
      if expected.den = 1 ∧ n.den = 1 then
        if expected.num ≠ n.num then .error "integer mismatch" else .ok ()
      else if goAbsQ (expected - n) > 1 / 1000000000 then .error "number mismatch"
      else .ok ()

/-! ## A computable size for Json (fuel bounds)

The auto-generated SizeOf of the nested inductive has no compiled code, so
the fuel wrappers use this structural size (mirroring sizeOf shapes). -/

mutual

def jsizeJ : Json → Nat
  | .null => 1
  | .bool _ => 1
  | .num _ => 1
  | .str _ => 1
  | .arr xs => 1 + jsizeL xs
  | .obj fs => 1 + jsizeF fs

def jsizeL : List Json → Nat
  | [] => 1
  | x :: xs => 1 + jsizeJ x + jsizeL xs

def jsizeF : List (String × Json) → Nat
  | [] => 1
  | kv :: fs => 1 + jsizeJ kv.2 + jsizeF fs

end

/-- matchExistsAssertion ($exists with optional $type). -/
def matchExistsAssertion (expected : List (String × Json)) (actual : Json) :
    Except String Unit :=
  match asBoolZ (mapRead expected "$exists") with
  | none => .error "invalid $exists value"
  | some wantExists =>
      if wantExists ∧ isNullJ actual then
        .error "expected field to exist, but it is missing"
      else if ¬wantExists ∧ ¬isNullJ actual then
        .error "expected field to not exist, but got a value"
      else
        match lookupField expected "$type" with
        | some typeRaw =>
            (match asStrZ typeRaw with
            | some expectedType =>
                if jsonType actual ≠ expectedType then .error "type mismatch" else .ok ()
            | none => .ok ())
        | none => .ok ()

/-- matchRegexAssertion ($match). -/
def matchRegexAssertion (rx : GoRegex) (expected : List (String × Json))
    (actual : Json) : Except String Unit :=
  match asStrZ (mapRead expected "$match") with
  | none => .error "invalid $match value"
  | some pat =>
      match actual with
      | .str s =>
          (match rx pat with
          | none => .error "invalid regex pattern"
          | some f => if f s then .ok () else .error "expected string matching pattern")
      | _ => .error "expected string for $match"

/-- matchSizeAssertion ($size as int or as an object with $gte). -/
def matchSizeAssertion (expected : List (String × Json)) (actual : Json) :
    Except String Unit :=
  match actual with
  | .arr xs =>
      (match asIntZ (mapRead expected "$size") with
      | some sizeInt =>
          if (xs.length : Int) ≠ sizeInt then .error "size mismatch" else .ok ()
      | none =>
          match asObjZ (mapRead expected "$size") with
          | some sizeObj =>
              (match lookupField sizeObj "$gte" with
              | some gteRaw =>
                  (match asIntZ gteRaw with
                  | some gte =>
                      if (xs.length : Int) < gte then .error "size below $gte" else .ok ()
                  | none => .error "unsupported $size format")
              | none => .error "unsupported $size format")
          | none => .error "unsupported $size format")
  | _ => .error "expected array for $size"

/-- matchRangeAssertion (range with optional min/max). -/
def matchRangeAssertion (rangeRaw : Json) (actual : Json) : Except String Unit :=
  match asObjZ rangeRaw with
  | none => .error "invalid range value"
  | some rangeObj =>
      match toFloat64 actual with
      | none => .error "expected number for range check"
      | some n =>
          let minCheck : Except String Unit :=
            match lookupField rangeObj "min" with
            | some minRaw =>
                (match asNumZ minRaw with
                | some minVal => if n < minVal then .error "below min" else .ok ()
                | none => .ok ())
            | none => .ok ()
          match minCheck with
          | .error e => .error e
          | .ok () =>
              match lookupField rangeObj "max" with
              | some maxRaw =>
                  (match asNumZ maxRaw with
                  | some maxVal => if n > maxVal then .error "above max" else .ok ()
                  | none => .ok ())
              | none => .ok ()

mutual

/-- MatchAssertion body: top-level matcher dispatch.  The source compares the
raw bytes against the literal `null` first; for a non-null matcher exactly
one of the typed unmarshal attempts (string, number, bool, array, object, in
that order) succeeds, so the dispatch is the constructor match below.  The
fuel argument makes the mutual recursion structural; the `MatchAssertion`
wrapper supplies enough for the recursion-limit branch to be unreachable. -/
def MatchAssertionF (fuel : Nat) (rx : GoRegex) (matcher actual : Json) :
    Except String Unit :=
  match fuel with
  | 0 => .error "recursion limit"
  | n + 1 =>
    match matcher with
    | .null =>
        -- null checked FIRST: json.Unmarshal would accept null as the zero
        -- value of every later target type
        (match actual with
        | .null => .ok ()
        | _ => .error "expected null, got a value")
    | .str s => matchStringAssertion rx s actual
    | .num q => matchNumberAssertion q actual
    | .bool b =>
        (match actual with
        | .bool ab => if ab ≠ b then .error "boolean mismatch" else .ok ()
        | _ => .error "expected boolean, got non-boolean")
    | .arr es => matchArrayAssertionF n rx es actual
    | .obj fs => matchObjectAssertionF n rx fs actual

/-- matchArrayAssertion. -/
def matchArrayAssertionF (fuel : Nat) (rx : GoRegex) (expected : List Json)
    (actual : Json) : Except String Unit :=
  match fuel with
  | 0 => .error "recursion limit"
  | n + 1 =>
    match actual with
    | .arr xs =>
        if xs.length ≠ expected.length then .error "array length mismatch"
        else matchElemsF n rx expected xs
    | _ => .error "expected array, got non-array"

/-- Element-wise loop of matchArrayAssertion (index-aligned since the caller
checked equal lengths). -/
def matchElemsF (fuel : Nat) (rx : GoRegex) (expected actualElems : List Json) :
    Except String Unit :=
  match fuel with
  | 0 => .error "recursion limit"
  | n + 1 =>
    match expected, actualElems with
    | [], _ => .ok ()
    | _ :: _, [] => .ok ()
    | e :: es, a :: as' =>
        match MatchAssertionF n rx e a with
        | .error msg => .error ("[i]: " ++ msg)
        | .ok () => matchElemsF n rx es as'

/-- matchObjectAssertion: operator keys in source priority order, then the
field-wise interpretation.  The recursive operators receive the extracted
operand (the source re-reads it from the map; same value). -/
def matchObjectAssertionF (fuel : Nat) (rx : GoRegex)
    (expected : List (String × Json)) (actual : Json) : Except String Unit :=
  match fuel with
  | 0 => .error "recursion limit"
  | n + 1 =>
    if (lookupField expected "$exists").isSome then
      matchExistsAssertion expected actual
    else if (lookupField expected "$match").isSome then
      matchRegexAssertion rx expected actual
    else
      match lookupField expected "$in" with
      | some inRaw => matchInAssertionF n rx inRaw actual
      | none =>
        if (lookupField expected "$size").isSome then
          matchSizeAssertion expected actual
        else
          match lookupField expected "$or" with
          | some orRaw => matchOrAssertionF n rx orRaw actual
          | none =>
            if (lookupField expected "$empty").isSome then
              -- $empty: true means the body should be empty/null
              (match actual with
              | .null => .ok ()
              | _ => .ok ()) -- source: allow the empty check to pass
            else
              match lookupField expected "range" with
              | some rangeRaw => matchRangeAssertion rangeRaw actual
              | none =>
                (match actual with
                | .obj aobj => matchObjFieldsF n rx expected aobj
                | _ => .error "expected object, got non-object")

/-- Field-wise loop of matchObjectAssertion. -/
def matchObjFieldsF (fuel : Nat) (rx : GoRegex) (entries : List (String × Json))
    (aobj : List (String × Json)) : Except String Unit :=
  match fuel with
  | 0 => .error "recursion limit"
  | n + 1 =>
    match entries with
    | [] => .ok ()
    | (key, exp) :: rest =>
        -- the string matcher "absent" flips the polarity of existence
        if asStrZ exp = some "absent" then
          match lookupField aobj key with
          | some _ => .error ("field " ++ key ++ ": expected absent, but field exists")
          | none => matchObjFieldsF n rx rest aobj
        else
          match lookupField aobj key with
          | none => .error ("field " ++ key ++ ": expected to exist but is missing")
          | some val =>
              match MatchAssertionF n rx exp val with
              | .error e => .error ("field " ++ key ++ ": " ++ e)
              | .ok () => matchObjFieldsF n rx rest aobj

/-- matchInAssertion. -/
def matchInAssertionF (fuel : Nat) (rx : GoRegex) (inRaw : Json) (actual : Json) :
    Except String Unit :=
  match fuel with
  | 0 => .error "recursion limit"
  | n + 1 =>
    match asArrZ inRaw with
    | none => .error "invalid $in value"
    | some items => matchInListF n rx items actual

/-- Alternative loop of matchInAssertion. -/
def matchInListF (fuel : Nat) (rx : GoRegex) (items : List Json) (actual : Json) :
    Except String Unit :=
  match fuel with
  | 0 => .error "recursion limit"
  | n + 1 =>
    match items with
    | [] => .error "value not found in $in list"
    | it :: rest =>
        match MatchAssertionF n rx it actual with
        | .ok () => .ok ()
        | .error _ => matchInListF n rx rest actual

/-- matchOrAssertion. -/
def matchOrAssertionF (fuel : Nat) (rx : GoRegex) (orRaw : Json) (actual : Json) :
    Except String Unit :=
  match fuel with
  | 0 => .error "recursion limit"
  | n + 1 =>
    match asArrZ orRaw with
    | none => .error "invalid $or value"
    | some alts => matchOrListF n rx alts actual

/-- Alternative loop of matchOrAssertion. -/
def matchOrListF (fuel : Nat) (rx : GoRegex) (alts : List Json) (actual : Json) :
    Except String Unit :=
  match fuel with
  | 0 => .error "recursion limit"
  | n + 1 =>
    match alts with
    | [] => .error "value did not match any $or alternative"
    | alt :: rest =>
        match MatchAssertionF n rx alt actual with
        | .ok () => .ok ()
        | .error _ => matchOrListF n rx rest actual

end

/-- MatchAssertion.  Fuel sufficiency: along every mutual call of the block
the quantity 2 * jsizeJ (respectively jsizeL, jsizeF) of the principal
argument (the matcher, the operand extracted from it, or the remaining
list), plus one on the operator entry functions, strictly decreases —
operands come from lookupField or asArrZ, both size-bounded by the object
they are read from — so the call depth is at most 2 * jsizeJ matcher + 1
and the recursion-limit branch is unreachable. -/
def MatchAssertion (rx : GoRegex) (matcher actual : Json) : Except String Unit :=
  MatchAssertionF (2 * jsizeJ matcher + 2) rx matcher actual

/-! ## Timing (lib/timing.go) -/

/-- TimingConfig. -/
structure TimingConfig where
  tolerancePct : ℚ
  minToleranceMs : ℚ
  maxWaitMs : Int
deriving Repr

/-- DefaultTimingConfig. -/
def DefaultTimingConfig : TimingConfig :=
  { tolerancePct := 50, minToleranceMs := 100, maxWaitMs := 30000 }

/-- TimingConfig.AssertApproximateMs: percentage tolerance floored at the
configured minimum. -/
def AssertApproximateMs (tc : TimingConfig) (expectedMs actualMs : ℚ) :
    Except String Unit :=
  let tolerance := goMaxQ (expectedMs * tc.tolerancePct / 100) tc.minToleranceMs
  if goAbsQ (actualMs - expectedMs) > tolerance then
    .error "timing assertion failed"
  else .ok ()

/-! ## Path resolver (lib ResolveJSONPath)

The resolver takes the path as a character list.  The Go function re-enters
itself at two sites (filter tail, wildcard projection); each re-entry receives
a strictly shorter path than the caller's, so the fuel `path.length + 1`
supplied by the `ResolveJSONPath` wrapper is never exhausted. -/

/-- splitJSONPath: split on dots, respecting bracket depth. -/
def splitJSONPathAux : List Char → List Char → Int → List (List Char)
  | [], cur, _ => if cur.length > 0 then [cur] else []
  | c :: cs, cur, depth =>
      if c == '[' then splitJSONPathAux cs (cur ++ [c]) (depth + 1)
      else if c == ']' then splitJSONPathAux cs (cur ++ [c]) (depth - 1)
      else if c == '.' && depth == 0 then cur :: splitJSONPathAux cs [] 0
      else splitJSONPathAux cs (cur ++ [c]) depth

/-- splitJSONPath entry point. -/
def splitJSONPath (path : List Char) : List (List Char) :=
  splitJSONPathAux path [] 0

/-- The leading strip of ResolveJSONPath: only a literal dollar-dot prefix. -/
def stripDollarDot (path : List Char) : List Char :=
  if isPreL "$.".data path then path.drop 2 else path

/-- strings.Join with a dot separator. -/
def joinWithDot : List (List Char) → List Char
  | [] => []
  | [s] => s
  | s :: rest => s ++ '.' :: joinWithDot rest

/-- The filter scan: first array element that is an object carrying the key
with the demanded stringification; nil interface when no element matches. -/
def findFilterMatch : List Json → String → String → Json
  | [], _, _ => Json.null
  | item :: rest, key, val =>
      match item with
      | .obj o =>
          (match lookupField o key with
          | some v => if goSprintV v = val then item else findFilterMatch rest key val
          | none => findFilterMatch rest key val)
      | _ => findFilterMatch rest key val

/-- Outcome of the chained-bracket loop: either the whole resolution returned
(a wildcard projection), or traversal continues with a new current value. -/
inductive BracketOut where
  | done (v : Json)
  | cont (v : Json)
deriving Repr

mutual

/-- The per-part loop of ResolveJSONPath.  The fuel makes the mutual
recursion structural; the `ResolveJSONPath` wrapper supplies enough for the
depth-exceeded branch to be unreachable on any input it is applied to. -/
def resolveParts (fuel : Nat) (parts : List (List Char)) (current : Json) :
    Except String Json :=
  match fuel with
  | 0 => .error "resolution depth exceeded"
  | n + 1 =>
    match parts with
    | [] => .ok current
    | part :: rest =>
      if part.isEmpty then resolveParts n rest current
      else
        match idxOfChar '[' part with
        | some idx =>
            let field := part.take idx
            let brkt := part.drop idx
            -- field access ahead of the brackets (map read: missing gives nil)
            let fieldStep : Except String Json :=
              if field.isEmpty then .ok current
              else match current with
                | .obj o => .ok (mapRead o (String.mk field))
                | _ => .error "expected object at field"
            (match fieldStep with
            | .error e => .error e
            | .ok cur1 =>
              if isPreL "[?(@.".data brkt then
                -- filter expression
                match idxOfSub ")]".data brkt with
                | none => .error "unclosed filter expression in path"
                | some closeIdx =>
                  let filterExpr := (brkt.take closeIdx).drop 5
                  let rest2 := brkt.drop (closeIdx + 2)
                  match idxOfSub "==".data filterExpr with
                  | none => .error "unsupported filter expression in path"
                  | some eqIdx =>
                    let filterKey := String.mk (filterExpr.take eqIdx)
                    let filterVal := String.mk (trimCut ['\'', '"'] (filterExpr.drop (eqIdx + 2)))
                    match cur1 with
                    | .arr items =>
                        let matched := findFilterMatch items filterKey filterVal
                        -- a trailing dot segment re-enters the resolver and
                        -- returns from the whole function
                        if !rest2.isEmpty && !isNullJ matched && isPreL ".".data rest2 then
                          resolveParts n
                            (splitJSONPath (stripDollarDot (rest2.drop 1))) matched
                        else resolveParts n rest matched
                    | _ => .error "expected array for filter"
              else
                match resolveBrackets n brkt cur1 rest with
                | .error e => .error e
                | .ok (.done v) => .ok v
                | .ok (.cont cur2) => resolveParts n rest cur2)
        | none =>
            match current with
            | .obj o =>
                (match lookupField o (String.mk part) with
                | none => .ok Json.null  -- missing object field: soft null return
                | some v => resolveParts n rest v)
            | _ => .error "expected object at segment"

/-- The chained-bracket loop (`[0][1]`, `[*]`) of ResolveJSONPath. -/
def resolveBrackets (fuel : Nat) (brkt : List Char) (current : Json)
    (laterParts : List (List Char)) : Except String BracketOut :=
  match fuel with
  | 0 => .error "resolution depth exceeded"
  | n + 1 =>
    match brkt with
    | [] => .ok (.cont current)
    | b :: bs =>
      if ¬ isPreL "[".data (b :: bs) then .error "unexpected characters in path"
      else
        match idxOfChar ']' (b :: bs) with
        | none => .error "unclosed bracket in path"
        | some closeIdx =>
          let indexStr := ((b :: bs).take closeIdx).drop 1
          let rest2 := (b :: bs).drop (closeIdx + 1)
          if indexStr = "*".data then
            match current with
            | .arr items =>
                -- remaining path: leftover brackets plus all later dot parts
                let remainingSegments : List (List Char) :=
                  (if rest2.isEmpty then [] else [rest2]) ++ laterParts
                let joined := joinWithDot remainingSegments
                let remainingPath :=
                  if isPreL ".".data joined then joined.drop 1 else joined
                if remainingPath.isEmpty then .ok (.done (Json.arr items))
                else .ok (.done (Json.arr (collectWildcard n remainingPath items)))
            | _ => .error "expected array for wildcard"
          else
            match goAtoi indexStr with
            | none => .error "invalid array index in path"
            | some index =>
                match current with
                | .arr items =>
                    if index < 0 ∨ (items.length : Int) ≤ index then
                      .error "array index out of bounds"
                    else resolveBrackets n rest2 (items.getD index.toNat Json.null) laterParts
                | _ => .error "expected array at index"

/-- The wildcard projection loop: resolve the remaining path against each
element, silently dropping errors and nils. -/
def collectWildcard (fuel : Nat) (remainingPath : List Char) (items : List Json) :
    List Json :=
  match fuel with
  | 0 => []
  | n + 1 =>
    match items with
    | [] => []
    | item :: rest =>
        match resolveParts n (splitJSONPath (stripDollarDot remainingPath)) item with
        | .ok v =>
            if isNullJ v then collectWildcard n remainingPath rest
            else v :: collectWildcard n remainingPath rest
        | .error _ => collectWildcard n remainingPath rest

end

/-- ResolveJSONPath: wrapper supplying the fuel.  Every mutual call above
either consumes path text, descends into the data, or steps an element list,
so the depth is generously bounded by the product below; the Go function
itself re-enters only on strictly shorter paths. -/
def ResolveJSONPath (path : List Char) (data : Json) : Except String Json :=
  resolveParts (4 * (path.length + 2) * (jsizeJ data + 2))
    (splitJSONPath (stripDollarDot path)) data

/-! ## Schema types (lib/schema.go) -/

/-- TimingAssertion. -/
structure TimingAssertion where
  lessThan : Option Int := none
  greaterThan : Option Int := none
  approximate : Option Int := none
deriving Repr

/-- Assertions.  Raw-message fields are carried as decoded `Json`; map-typed
fields keep Go nil/non-nil via `Option`. -/
structure Assertions where
  status : Option Json := none
  statusIn : List Int := []
  body : Option (List (String × Json)) := none
  bodyAbsent : List String := []
  headers : Option (List (String × String)) := none
  timingMs : Option TimingAssertion := none
  bodyRaw : Option Json := none
  bodyContains : List String := []
deriving Repr

/-- Step. -/
structure Step where
  id : String
  action : String
  intent : String := ""
  path : String := ""
  headers : Option (List (String × String)) := none
  body : Option String := none
  delayMs : Int := 0
  durationMs : Int := 0
  assertions : Option Assertions := none
  description : String := ""
deriving Repr

/-- Setup (also used for teardown). -/
structure Setup where
  steps : List Step
deriving Repr

/-- TestCase. -/
structure TestCase where
  testId : String
  level : Int
  category : String := ""
  name : String := ""
  description : String := ""
  specRef : String := ""
  tags : List String := []
  setup : Option Setup := none
  steps : List Step := []
  teardown : Option Setup := none
  filePath : String := ""
deriving Repr

/-- Failure. -/
structure Failure where
  stepId : String := ""
  field : String := ""
  expected : String := ""
  actual : String := ""
  message : String := ""
deriving Repr, DecidableEq

/-- StepResult.  `parsed` keeps Go nil/non-nil of the decoded body map. -/
structure StepResult where
  stepId : String
  statusCode : Int := 0
  headers : List (String × String) := []
  body : String := ""
  durationMs : Int := 0
  parsed : Option (List (String × Json)) := none
deriving Repr

/-- TestResult. -/
structure TestResult where
  testId : String
  name : String := ""
  level : Int
  category : String := ""
  specRef : String := ""
  filePath : String := ""
  status : String := ""
  durationMs : Int := 0
  failures : List Failure := []
  stepResults : List StepResult := []
deriving Repr

/-- Passing `sr.Parsed` (a possibly nil `map[string]any`) as `any`: a nil map
type-asserts to a map and reads as empty, so both become an object value. -/
def parsedToJson : Option (List (String × Json)) → Json
  | none => Json.obj []
  | some m => Json.obj m

/-! ## json.Marshal / json.Unmarshal on whole values

Used by the template resolution pipeline, which works on the serialized bytes
of a matcher.  The model serializes canonically (Go map keys sorted, default
HTML escaping); non-integral numbers are written approximately, which no
in-scope theorem exercises. -/

def goHexChar (n : Nat) : Char :=
  Char.ofNat (if n ≤ 9 then 48 + n else 87 + n)

/-- Go json string escaping: quotes, backslash, control characters, and the
HTML-relevant characters as unicode escapes. -/
def escapeJsonChar (c : Char) : List Char :=
  if c == '"' then ['\\', '"']
  else if c == '\\' then ['\\', '\\']
  else if c == '\n' then ['\\', 'n']
  else if c == '\r' then ['\\', 'r']
  else if c == '\t' then ['\\', 't']
  else if c == '<' || c == '>' || c == '&' || c.toNat < 32 then
    ['\\', 'u', '0', '0', goHexChar (c.toNat / 16 % 16), goHexChar (c.toNat % 16)]
  else [c]

/-- Stable insertion of a field into a key-sorted list. -/
def insertFieldSorted (kv : String × Json) :
    List (String × Json) → List (String × Json)
  | [] => [kv]
  | x :: xs => if kv.1 < x.1 then kv :: x :: xs else x :: insertFieldSorted kv xs

/-- Sort object fields by key (Go json.Marshal sorts map keys). -/
def sortFields (fs : List (String × Json)) : List (String × Json) :=
  fs.foldr insertFieldSorted []

mutual

/-- json.Marshal body; the fuel makes the nested recursion structural and
the `serializeJson` wrapper supplies enough (strictly smaller jsize at
every mutual call; sortFields permutes, preserving the size). -/
def serializeJsonF (fuel : Nat) (j : Json) : String :=
  match fuel with
  | 0 => ""
  | n + 1 =>
    match j with
    | .null => "null"
    | .bool b => if b then "true" else "false"
    | .num q => if q.den = 1 then toString q.num else toString q
    | .str s => "\"" ++ String.mk (s.data.flatMap escapeJsonChar) ++ "\""
    | .arr xs => "[" ++ String.intercalate "," (serializeItemsF n xs) ++ "]"
    | .obj fs =>
        "\x7b" ++ String.intercalate "," (serializeFieldsF n (sortFields fs)) ++ "\x7d"

def serializeItemsF (fuel : Nat) (xs : List Json) : List String :=
  match fuel with
  | 0 => []
  | n + 1 =>
    match xs with
    | [] => []
    | x :: rest => serializeJsonF n x :: serializeItemsF n rest

def serializeFieldsF (fuel : Nat) (fs : List (String × Json)) : List String :=
  match fuel with
  | 0 => []
  | n + 1 =>
    match fs with
    | [] => []
    | kv :: rest =>
        ("\"" ++ String.mk (kv.1.data.flatMap escapeJsonChar) ++ "\":" ++
          serializeJsonF n kv.2) :: serializeFieldsF n rest

end

/-- json.Marshal of a decoded value. -/
def serializeJson (j : Json) : String :=
  serializeJsonF (2 * jsizeJ j + 2) j

/-- JSON whitespace skip. -/
def skipWs : List Char → List Char
  | c :: cs => if c == ' ' || c == '\t' || c == '\n' || c == '\r' then skipWs cs else c :: cs
  | [] => []

/-- Parse a JSON string body after the opening quote; returns content and rest. -/
def parseJsonStr (fuel : Nat) (s : List Char) : Option (List Char × List Char) :=
  match fuel with
  | 0 => none
  | fuel + 1 =>
    match s with
    | '"' :: rest => some ([], rest)
    | '\\' :: e :: rest =>
        (match e with
        | '"' => (parseJsonStr fuel rest).map (fun (r, t) => ('"' :: r, t))
        | '\\' => (parseJsonStr fuel rest).map (fun (r, t) => ('\\' :: r, t))
        | '/' => (parseJsonStr fuel rest).map (fun (r, t) => ('/' :: r, t))
        | 'b' => (parseJsonStr fuel rest).map (fun (r, t) => ('\x08' :: r, t))
        | 'f' => (parseJsonStr fuel rest).map (fun (r, t) => ('\x0c' :: r, t))
        | 'n' => (parseJsonStr fuel rest).map (fun (r, t) => ('\n' :: r, t))
        | 'r' => (parseJsonStr fuel rest).map (fun (r, t) => ('\r' :: r, t))
        | 't' => (parseJsonStr fuel rest).map (fun (r, t) => ('\t' :: r, t))
        | 'u' =>
            (match rest with
            | a :: b :: c :: d :: rest2 =>
                (match [a, b, c, d].mapM hexVal with
                | some ds =>
                    let n := ds.foldl (fun acc v => acc * 16 + v) 0
                    (parseJsonStr fuel rest2).map (fun (r, t) => (Char.ofNat n :: r, t))
                | none => none)
            | _ => none)
        | _ => none)
    | c :: rest => (parseJsonStr fuel rest).map (fun (r, t) => (c :: r, t))
    | [] => none
where
  hexVal (c : Char) : Option Nat :=
    let v := c.toNat
    if 48 ≤ v ∧ v ≤ 57 then some (v - 48)
    else if 97 ≤ v ∧ v ≤ 102 then some (v - 87)
    else if 65 ≤ v ∧ v ≤ 70 then some (v - 55)
    else none

/-- Parse a JSON number; returns value and rest. -/
def parseJsonNum (s : List Char) : Option (ℚ × List Char) :=
  let withSign : Bool × List Char :=
    match s with
    | '-' :: rest => (true, rest)
    | _ => (false, s)
  let (neg, s1) := withSign
  match captureRun isDigitChar s1 with
  | none => none
  | some (intRun, s2) =>
      match digitsToNat intRun with
      | none => none
      | some intVal =>
          let (fracVal, s3) :=
            match s2 with
            | '.' :: rest =>
                (match captureRun isDigitChar rest with
                | some (fracRun, rest2) => (fracToRat fracRun, rest2)
                | none => (0, s2))
            | _ => ((0 : ℚ), s2)
          let (expVal, s4) :=
            match s3 with
            | e :: rest =>
                if e == 'e' || e == 'E' then
                  (match rest with
                  | '+' :: rest2 =>
                      (match captureRun isDigitChar rest2 with
                      | some (er, rest3) => (Int.ofNat ((digitsToNat er).getD 0), rest3)
                      | none => (0, s3))
                  | '-' :: rest2 =>
                      (match captureRun isDigitChar rest2 with
                      | some (er, rest3) => (-Int.ofNat ((digitsToNat er).getD 0), rest3)
                      | none => (0, s3))
                  | _ =>
                      (match captureRun isDigitChar rest with
                      | some (er, rest3) => (Int.ofNat ((digitsToNat er).getD 0), rest3)
                      | none => (0, s3)))
                else ((0 : Int), s3)
            | [] => ((0 : Int), s3)
          let mag : ℚ := ((intVal : ℚ) + fracVal) * (10 : ℚ) ^ expVal
          some (if neg then -mag else mag, s4)

mutual

/-- Parse one JSON value; fuel bounds the nesting depth. -/
def parseJsonVal (fuel : Nat) (s : List Char) : Option (Json × List Char) :=
  match fuel with
  | 0 => none
  | n + 1 =>
    match skipWs s with
    | [] => none
    | c :: cs =>
        if c == 'n' then
          if isPreL "ull".data cs then some (Json.null, cs.drop 3) else none
        else if c == 't' then
          if isPreL "rue".data cs then some (Json.bool true, cs.drop 3) else none
        else if c == 'f' then
          if isPreL "alse".data cs then some (Json.bool false, cs.drop 4) else none
        else if c == '"' then
          (parseJsonStr (cs.length + 1) cs).map (fun (r, t) => (Json.str (String.mk r), t))
        else if c == '[' then
          match skipWs cs with
          | ']' :: rest => some (Json.arr [], rest)
          | other => (parseJsonItems n other).map (fun (xs, t) => (Json.arr xs, t))
        else if c == '\x7b' then
          match skipWs cs with
          | '\x7d' :: rest => some (Json.obj [], rest)
          | other => (parseJsonFields n other).map (fun (fs, t) => (Json.obj fs, t))
        else
          (parseJsonNum (c :: cs)).map (fun (q, t) => (Json.num q, t))

/-- Comma-separated array items up to the closing bracket. -/
def parseJsonItems (fuel : Nat) (s : List Char) : Option (List Json × List Char) :=
  match fuel with
  | 0 => none
  | n + 1 =>
    match parseJsonVal n s with
    | none => none
    | some (v, rest) =>
        match skipWs rest with
        | ',' :: rest2 => (parseJsonItems n rest2).map (fun (xs, t) => (v :: xs, t))
        | ']' :: rest2 => some ([v], rest2)
        | _ => none

/-- Comma-separated object fields up to the closing brace. -/
def parseJsonFields (fuel : Nat) (s : List Char) :
    Option (List (String × Json) × List Char) :=
  match fuel with
  | 0 => none
  | n + 1 =>
    match skipWs s with
    | '"' :: cs =>
        (match parseJsonStr (cs.length + 1) cs with
        | none => none
        | some (key, rest) =>
            match skipWs rest with
            | ':' :: rest2 =>
                (match parseJsonVal n rest2 with
                | none => none
                | some (v, rest3) =>
                    match skipWs rest3 with
                    | ',' :: rest4 =>
                        (parseJsonFields n rest4).map
                          (fun (fs, t) => ((String.mk key, v) :: fs, t))
                    | '\x7d' :: rest4 => some ([(String.mk key, v)], rest4)
                    | _ => none)
            | _ => none)
    | _ => none

end

/-- json.Unmarshal of a whole byte string into a dynamic value. -/
def parseJsonFull (s : String) : Option Json :=
  match parseJsonVal (s.data.length + 1) s.data with
  | some (v, rest) => if (skipWs rest).isEmpty then some v else none
  | none => none

/-! ## Template resolution (runner resolveTemplates / resolveMatcherTemplates)

templateRefPattern captures a step id (nonempty, dot-free) and a field path
(nonempty, brace-free) between double-brace delimiters; the scanner below is
the leftmost-match replacement of regexp.ReplaceAllStringFunc specialized to
that pattern. -/

/-- The step-result context: a map from step id to StepResult. -/
def StepMap : Type := List (String × StepResult)

def stepMapGet (m : StepMap) (key : String) : Option StepResult :=
  match m with
  | [] => none
  | (k, v) :: rest => if k = key then some v else stepMapGet rest key

def stepMapSet (m : StepMap) (key : String) (v : StepResult) : StepMap :=
  match m with
  | [] => [(key, v)]
  | (k, w) :: rest => if k = key then (k, v) :: rest else (k, w) :: stepMapSet rest key v

/-- The literal text opening a template reference. -/
def templateMarker : List Char := "\x7b\x7bsteps.".data

/-- Try to match templateRefPattern at the head of `s`.  Returns the matched
text, the two capture groups, and the remainder after the match. -/
def tryTemplateAt (s : List Char) :
    Option (List Char × List Char × List Char × List Char) := do
  if isPreL templateMarker s then
    let r0 := s.drop templateMarker.length
    let (stepID, r1) ← captureRun (fun c => !(c == '.')) r0
    let r2 ← consumeLit ".response.body.".data r1
    let (fieldPath, r3) ← captureRun (fun c => !(c == '\x7d')) r2
    let rest ← consumeLit "\x7d\x7d".data r3
    some (s.take (s.length - rest.length), stepID, fieldPath, rest)
  else none

/-- Rendering of a resolved template value (the switch in resolveTemplates):
strings as-is, integral numbers in base ten, other values as JSON. -/
def renderTemplateValue : Json → List Char
  | .str v => v.data
  | .num v =>
      if v.den = 1 then (toString v.num).data
      else (toString v).data
  | other => (serializeJson other).data

/-- The replacement function passed to ReplaceAllStringFunc. -/
def templateReplacement (srs : StepMap) (matched stepID fieldPath : List Char) :
    List Char :=
  match stepMapGet srs (String.mk stepID) with
  | none => matched
  | some sr =>
      match sr.parsed with
      | none => matched
      | some pm =>
          match ResolveJSONPath fieldPath (Json.obj pm) with
          | .error _ => matched
          | .ok v => if isNullJ v then matched else renderTemplateValue v

/-- Leftmost-scan replacement.  Fuel bounds the number of scanner steps; each
step continues on a strictly shorter list, so `length + 1` never runs out. -/
def scanTemplates (fuel : Nat) (srs : StepMap) (s : List Char) : List Char :=
  match fuel with
  | 0 => s
  | n + 1 =>
    match s with
    | [] => []
    | c :: cs =>
        match tryTemplateAt (c :: cs) with
        | some (matched, stepID, fieldPath, rest) =>
            templateReplacement srs matched stepID fieldPath ++ scanTemplates n srs rest
        | none => c :: scanTemplates n srs cs

/-- resolveTemplates (identical in both runners). -/
def resolveTemplates (input : String) (srs : StepMap) : String :=
  String.mk (scanTemplates (input.data.length + 1) srs input.data)

/-- resolveMatcherTemplates.  The Go function works on the matcher's raw
bytes; the model uses the canonical serialization.  A `none` result models a
resolved byte string that is no longer valid JSON (every subsequent unmarshal
of it fails). -/
def resolveMatcherTemplates (m : Json) (srs : StepMap) : Option Json :=
  let s := serializeJson m
  if !containsSub s.data templateMarker then some m
  else
    let r := scanTemplates (s.data.length + 1) srs s.data
    if r = s.data then some m
    else parseJsonFull (String.mk r)

/-- MatchAssertion on a possibly invalid raw matcher (see
resolveMatcherTemplates): invalid bytes fail every unmarshal attempt and fall
through to the unknown-matcher-format error. -/
def matchRawAssertion (rx : GoRegex) (m : Option Json) (actual : Json) :
    Except String Unit :=
  match m with
  | some mv => MatchAssertion rx mv actual
  | none => .error "unknown matcher format"

/-- The `json.Unmarshal(matcher, &s) == nil && s == "absent"` test on a
possibly invalid raw matcher. -/
def rawIsAbsent (m : Option Json) : Bool :=
  match m with
  | some mv => asStrZ mv == some "absent"
  | none => false

/-! ## Runner assertion evaluation (runner/http/runner.go)

The gRPC adapter's evaluateAssertions is the same translation minus the
header section; the HTTP version below is the richer of the two and the one
the theorems reference. -/

/-- evaluateStatusAssertion: integer, string matcher (with the status-only
one_of form), or an object with an integer $in list. -/
def evaluateStatusAssertion (rx : GoRegex) (raw : Json) (actual : Int) :
    Except String Unit :=
  match asIntZ raw with
  | some statusInt =>
      if actual ≠ statusInt then .error "status mismatch" else .ok ()
  | none =>
    match asStrZ raw with
    | some statusStr =>
        if isPreL "one_of:".data statusStr.data then
          oneOfLoop actual (splitOnChar ',' (statusStr.data.drop "one_of:".length))
        else MatchAssertion rx raw (Json.num actual)
    | none =>
      match asObjZ raw with
      | some statusObj =>
          (match lookupField statusObj "$in" with
          | some inRaw =>
              (match asIntListZ inRaw with
              | some inList =>
                  if inList.any (fun s => actual = s) then .ok ()
                  else .error "status not in $in list"
              | none => .error "unknown status assertion format")
          | none => .error "unknown status assertion format")
      | none => .error "unknown status assertion format"
where
  oneOfLoop (actual : Int) : List (List Char) → Except String Unit
    | [] => .error "status not in one_of list"
    | code :: rest =>
        match goAtoi (goTrimSpace code) with
        | none => .error "invalid status code in one_of matcher"
        | some n => if actual = n then .ok () else oneOfLoop actual rest
  asIntListZ (j : Json) : Option (List Int) :=
    match asArrZ j with
    | some xs => xs.mapM asIntZ
    | none => none

/-- One alternative bundle of a top-level body $or: an object whose every
entry (path, matcher) must resolve and match.  A non-object alternative never
counts as matched. -/
def orAltPasses (rx : GoRegex) (srs : StepMap)
    (parsed : Option (List (String × Json))) (alt : Json) : Bool :=
  match asObjZ alt with
  | none => false
  | some altBody =>
      altBody.all (fun pm =>
        let resolvedMatcher := resolveMatcherTemplates pm.2 srs
        match ResolveJSONPath pm.1.data (parsedToJson parsed) with
        | .error _ => false
        | .ok val =>
            match matchRawAssertion rx resolvedMatcher val with
            | .ok () => true
            | .error _ => false)

/-- The top-level $or section of the body assertions: a failure when the $or
key is present, unmarshals to an array, and no alternative passes. -/
def orSectionFailures (rx : GoRegex) (srs : StepMap) (stepId : String)
    (bodyMap : List (String × Json)) (parsed : Option (List (String × Json))) :
    List Failure :=
  match lookupField bodyMap "$or" with
  | none => []
  | some orRaw =>
      match asArrZ orRaw with
      | none => []  -- unmarshal failure: section silently skipped
      | some alternatives =>
          if alternatives.any (orAltPasses rx srs parsed) then []
          else [{ stepId := stepId, field := "$or", message := "No $or alternative matched" }]

/-- One ordinary body entry (evaluated only when the parsed body is non-nil):
meta-operator keys are skipped; path resolution failure is forgiven only for
the absent matcher. -/
def bodyEntryFailures (rx : GoRegex) (srs : StepMap) (stepId : String)
    (parsed : Option (List (String × Json))) (entry : String × Json) :
    List Failure :=
  let path := entry.1
  let matcher := entry.2
  if isPreL "$".data path.data ∧ ¬ isPreL "$.".data path.data then []
  else
    let resolvedPath := resolveTemplates path srs
    let resolvedMatcher := resolveMatcherTemplates matcher srs
    match ResolveJSONPath resolvedPath.data (parsedToJson parsed) with
    | .error _ =>
        if rawIsAbsent resolvedMatcher then []
        else [{ stepId := stepId, field := path,
                message := "Failed to resolve path" }]
    | .ok val =>
        match matchRawAssertion rx resolvedMatcher val with
        | .error e =>
            [{ stepId := stepId, field := path,
               expected := (resolvedMatcher.map serializeJson).getD "",
               actual := if isNullJ val then "null" else serializeJson val,
               message := "Assertion failed: " ++ e }]
        | .ok () => []

/-- evaluateAssertions: all assertion families of a step, collected in source
order without short-circuiting.  Callers invoke it only when the step carries
an assertions block. -/
def evaluateAssertions (rx : GoRegex) (step : Step) (sr : StepResult)
    (srs : StepMap) (timingCfg : TimingConfig) : List Failure :=
  match step.assertions with
  | none => []
  | some a =>
    let statusFails : List Failure :=
      match a.status with
      | some raw =>
          (match evaluateStatusAssertion rx raw sr.statusCode with
          | .error msg =>
              [{ stepId := step.id, field := "status", expected := serializeJson raw,
                 actual := toString sr.statusCode, message := msg }]
          | .ok () => [])
      | none => []
    let statusInFails : List Failure :=
      if a.statusIn.length > 0 ∧ ¬ a.statusIn.any (fun s => sr.statusCode = s) then
        [{ stepId := step.id, field := "status", message := "status not in list" }]
      else []
    let bodyFails : List Failure :=
      match a.body with
      | none => []
      | some bodyMap =>
          orSectionFailures rx srs step.id bodyMap sr.parsed ++
          (if sr.parsed.isSome then
            bodyMap.flatMap (bodyEntryFailures rx srs step.id sr.parsed)
          else [])
    let absentFails : List Failure :=
      a.bodyAbsent.flatMap (fun path =>
        let val := match ResolveJSONPath path.data (parsedToJson sr.parsed) with
          | .ok v => v
          | .error _ => Json.null
        if isNullJ val then []
        else [{ stepId := step.id, field := path, message := "Expected field to be absent" }])
    let headerFails : List Failure :=
      match a.headers with
      | none => []
      | some hs =>
          hs.flatMap (fun kv =>
            let actualV := headersGet sr.headers kv.1
            if actualV ≠ kv.2 then
              [{ stepId := step.id, field := "header:" ++ kv.1, expected := kv.2,
                 actual := actualV, message := "header mismatch" }]
            else [])
    let timingFails : List Failure :=
      match a.timingMs with
      | none => []
      | some t =>
          (match t.lessThan with
          | some lt =>
              if sr.durationMs ≥ lt then
                [{ stepId := step.id, field := "timing", message := "expected response faster" }]
              else []
          | none => []) ++
          (match t.greaterThan with
          | some gt =>
              if sr.durationMs ≤ gt then
                [{ stepId := step.id, field := "timing", message := "expected response slower" }]
              else []
          | none => []) ++
          (match t.approximate with
          | some approx =>
              (match AssertApproximateMs timingCfg (approx : ℚ) (sr.durationMs : ℚ) with
              | .error e => [{ stepId := step.id, field := "timing", message := e }]
              | .ok () => [])
          | none => [])
    let containsFails : List Failure :=
      a.bodyContains.flatMap (fun substr =>
        if ¬ containsSub sr.body.data substr.data then
          [{ stepId := step.id, field := "body_contains",
             message := "Response body does not contain substring" }]
        else [])
    statusFails ++ statusInFails ++ bodyFails ++ absentFails ++ headerFails ++
      timingFails ++ containsFails
where
  headersGet (hs : List (String × String)) (key : String) : String :=
    match hs.find? (fun kv => kv.1.toLower == key.toLower) with
    | some kv => kv.2
    | none => ""

/-! ## Test execution (runner runTest)

runTest is structurally identical in the HTTP runner and the gRPC adapter;
the transport-specific executeStep is abstracted as a `StepExec` oracle (the
transport adapter is an external collaborator).  Each run also produces the
ordered list of step ids handed to the oracle — pure instrumentation used to
state execution-order properties; it does not influence the control flow. -/

/-- The executeStep capability: a step plus the current step-result context
yields a StepResult and the failures of its assertions. -/
def StepExec : Type := Step → StepMap → StepResult × List Failure

/-- The setup loop: store each result; a first failure aborts with the
synthetic setup failure (subsequent setup steps do not run). -/
def runSetupSteps (exec : StepExec) (steps : List Step) (m : StepMap) :
    StepMap × List String × Option Failure :=
  match steps with
  | [] => (m, [], none)
  | step :: rest =>
      let (sr, failures) := exec step m
      let m2 := stepMapSet m step.id sr
      match failures with
      | [] =>
          let (m3, tr, e) := runSetupSteps exec rest m2
          (m3, step.id :: tr, e)
      | f :: _ =>
          (m2, [step.id],
            some { stepId := step.id, message := "Setup step failed: " ++ f.message })

/-- The main step loop: results and failures accumulate; no early exit. -/
def runMainSteps (exec : StepExec) (steps : List Step) (m : StepMap) :
    StepMap × List String × List StepResult × List Failure :=
  match steps with
  | [] => (m, [], [], [])
  | step :: rest =>
      let (sr, failures) := exec step m
      let m2 := stepMapSet m step.id sr
      let (m3, tr, srl, fl) := runMainSteps exec rest m2
      (m3, step.id :: tr, sr :: srl, failures ++ fl)

/-- The teardown loop: results stored, failures discarded. -/
def runTeardownSteps (exec : StepExec) (steps : List Step) (m : StepMap) :
    StepMap × List String :=
  match steps with
  | [] => (m, [])
  | step :: rest =>
      let (sr, _) := exec step m
      let m2 := stepMapSet m step.id sr
      let (m3, tr) := runTeardownSteps exec rest m2
      (m3, step.id :: tr)

/-- runTest: setup, steps, teardown, verdict.  Wall-clock durations are not
modelled (recorded as zero). -/
def runTest (exec : StepExec) (tc : TestCase) : TestResult × List String :=
  let base : TestResult :=
    { testId := tc.testId, name := tc.name, level := tc.level,
      category := tc.category, specRef := tc.specRef, filePath := tc.filePath }
  let setupOut :=
    match tc.setup with
    | some s => runSetupSteps exec s.steps []
    | none => (([] : StepMap), ([] : List String), (none : Option Failure))
  let m1 := setupOut.1
  let tr1 := setupOut.2.1
  match setupOut.2.2 with
  | some f =>
      -- a failed setup step aborts the test: error verdict, no teardown
      ({ base with status := "error", failures := [f] }, tr1)
  | none =>
      let (m2, tr2, srl, fl) := runMainSteps exec tc.steps m1
      let tr3 :=
        match tc.teardown with
        | some t => (runTeardownSteps exec t.steps m2).2
        | none => []
      ({ base with
          status := if fl.length > 0 then "fail" else "pass",
          failures := fl, stepResults := srl },
        tr1 ++ tr2 ++ tr3)

/-! ## Test loading (runner loadTests)

The file system walk is supplied as a directory listing; an entry whose
`parsed` is none models a file whose bytes fail to unmarshal into TestCase.
A walk error makes the whole load fail (the runner exits with code 2). -/

/-- One entry of the recursive directory walk. -/
structure DirEntry where
  path : String
  isDir : Bool := false
  parsed : Option TestCase := none
deriving Repr

/-- The filepath.Walk body: skip directories and non-json files; abort on the
first file that fails to parse; collect the rest with FilePath set. -/
def loadWalk : List DirEntry → Except String (List TestCase)
  | [] => .ok []
  | e :: rest =>
      if e.isDir || !isSufL ".json".data e.path.data then loadWalk rest
      else
        match e.parsed with
        | none => .error ("parsing " ++ e.path)
        | some tc =>
            (loadWalk rest).map (fun ts => ({ tc with filePath := e.path }) :: ts)

/-- Stable insertion into a testId-sorted list. -/
def insertByTestId (tc : TestCase) : List TestCase → List TestCase
  | [] => [tc]
  | x :: xs => if tc.testId < x.testId then tc :: x :: xs else x :: insertByTestId tc xs

/-- The deterministic-ordering sort by test_id (sort.Slice in the source;
any sorted permutation is a faithful model since ids are distinct). -/
def sortByTestId (ts : List TestCase) : List TestCase :=
  ts.foldr insertByTestId []

/-- loadTests (identical in the HTTP runner and the gRPC adapter). -/
def loadTests (entries : List DirEntry) : Except String (List TestCase) :=
  (loadWalk entries).map sortByTestId

/-! ## Report aggregation (HTTP runner buildReport and gRPC adapter
buildReport) -/

/-- LevelSummary. -/
structure LevelSummary where
  total : Int := 0
  passed : Int := 0
  failed : Int := 0
  skipped : Int := 0
  errored : Int := 0
  allPass : Bool := false
deriving Repr

/-- ResultsSummary; ByLevel is an integer-keyed map. -/
structure ResultsSummary where
  total : Int := 0
  passed : Int := 0
  failed : Int := 0
  skipped : Int := 0
  errored : Int := 0
  byLevel : List (Int × LevelSummary) := []
deriving Repr

/-- SuiteReport (fields not derived from the inputs are parameters). -/
structure SuiteReport where
  testSuiteVersion : String
  target : String
  runAt : String
  durationMs : Int
  requestedLevel : Int
  results : ResultsSummary
  conformant : Bool := false
  conformantLevel : Int := -1
  failures : List TestResult := []
  skipped : List TestResult := []
deriving Repr

/-- Go map lookup with presence. -/
def levelMapGet : List (Int × LevelSummary) → Int → Option LevelSummary
  | [], _ => none
  | (k, v) :: rest, key => if k = key then some v else levelMapGet rest key

/-- Go map read: zero value when absent. -/
def levelMapGetZ (m : List (Int × LevelSummary)) (key : Int) : LevelSummary :=
  (levelMapGet m key).getD {}

/-- Go map store. -/
def levelMapSet (m : List (Int × LevelSummary)) (key : Int) (v : LevelSummary) :
    List (Int × LevelSummary) :=
  match m with
  | [] => [(key, v)]
  | (k, w) :: rest =>
      if k = key then (k, v) :: rest else (k, w) :: levelMapSet rest key v

/-- The accumulation loop of the HTTP buildReport: per-verdict counters with
no default case (an unrecognized verdict only counts toward totals). -/
def httpAccum (rs : List TestResult) (summary : ResultsSummary)
    (failures skipped : List TestResult) :
    ResultsSummary × List TestResult × List TestResult :=
  match rs with
  | [] => (summary, failures, skipped)
  | r :: rest =>
      let ls0 := levelMapGetZ summary.byLevel r.level
      let ls := { ls0 with total := ls0.total + 1 }
      if r.status = "pass" then
        let ls2 := { ls with passed := ls.passed + 1 }
        let s2 := { summary with
                    passed := summary.passed + 1,
                    byLevel := levelMapSet summary.byLevel r.level ls2 }
        httpAccum rest s2 failures skipped
      else if r.status = "fail" then
        let ls2 := { ls with failed := ls.failed + 1 }
        let s2 := { summary with
                    failed := summary.failed + 1,
                    byLevel := levelMapSet summary.byLevel r.level ls2 }
        httpAccum rest s2 (failures ++ [r]) skipped
      else if r.status = "skip" then
        let ls2 := { ls with skipped := ls.skipped + 1 }
        let s2 := { summary with
                    skipped := summary.skipped + 1,
                    byLevel := levelMapSet summary.byLevel r.level ls2 }
        httpAccum rest s2 failures (skipped ++ [r])
      else if r.status = "error" then
        let ls2 := { ls with errored := ls.errored + 1 }
        let s2 := { summary with
                    errored := summary.errored + 1,
                    byLevel := levelMapSet summary.byLevel r.level ls2 }
        httpAccum rest s2 (failures ++ [r]) skipped
      else
        let s2 := { summary with byLevel := levelMapSet summary.byLevel r.level ls }
        httpAccum rest s2 failures skipped

/-- The conformance walk of the HTTP buildReport: an unrepresented level is
skipped (continue); a represented level gets AllPass recomputed and either
raises the conformant level or stops the walk. -/
def httpConfWalk (levels : List Int) (m : List (Int × LevelSummary)) (cl : Int) :
    List (Int × LevelSummary) × Int :=
  match levels with
  | [] => (m, cl)
  | lvl :: rest =>
      match levelMapGet m lvl with
      | none => httpConfWalk rest m cl
      | some ls =>
          let ls2 := { ls with allPass := ls.failed == 0 && ls.errored == 0 }
          let m2 := levelMapSet m lvl ls2
          if ls2.allPass && decide (ls2.total > 0) then httpConfWalk rest m2 lvl
          else (m2, cl)

/-- buildReport of the HTTP runner. -/
def httpBuildReport (results : List TestResult) (target : String)
    (requestedLevel : Int) (durationMs : Int) (runAt : String) : SuiteReport :=
  -- the in-loop reassignment of Total is the constant len(results)
  let out := httpAccum results { total := results.length } [] []
  let summary := out.1
  let walk := httpConfWalk [0, 1, 2, 3, 4] summary.byLevel (-1)
  { testSuiteVersion := "1.0", target := target, runAt := runAt,
    durationMs := durationMs, requestedLevel := requestedLevel,
    results := { summary with byLevel := walk.1 },
    conformant := summary.failed == 0 && summary.errored == 0,
    conformantLevel := walk.2,
    failures := out.2.1, skipped := out.2.2 }

/-- The accumulation loop of the gRPC adapter buildReport: a default case
counts unknown verdicts as failed, and AllPass is maintained per result as
"every counted test passed". -/
def grpcAccum (rs : List TestResult) (summary : ResultsSummary)
    (failures skipped : List TestResult) :
    ResultsSummary × List TestResult × List TestResult :=
  match rs with
  | [] => (summary, failures, skipped)
  | r :: rest =>
      let ls := levelMapGetZ summary.byLevel r.level
      let ls := { ls with total := ls.total + 1 }
      let next :=
        if r.status = "pass" then
          ({ summary with total := summary.total + 1, passed := summary.passed + 1 },
            { ls with passed := ls.passed + 1 }, failures, skipped)
        else if r.status = "skip" then
          ({ summary with total := summary.total + 1, skipped := summary.skipped + 1 },
            { ls with skipped := ls.skipped + 1 }, failures, skipped ++ [r])
        else if r.status = "error" then
          ({ summary with total := summary.total + 1, errored := summary.errored + 1 },
            { ls with errored := ls.errored + 1 }, failures ++ [r], skipped)
        else
          ({ summary with total := summary.total + 1, failed := summary.failed + 1 },
            { ls with failed := ls.failed + 1 }, failures ++ [r], skipped)
      let (summary2, ls2, failures2, skipped2) := next
      let ls3 := { ls2 with allPass := decide (ls2.total > 0) && ls2.passed == ls2.total }
      grpcAccum rest { summary2 with byLevel := levelMapSet summary2.byLevel r.level ls3 }
        failures2 skipped2

/-- The conformance walk of the gRPC adapter buildReport: break at the first
level that is unrepresented or not all-pass. -/
def grpcConfWalk (levels : List Int) (m : List (Int × LevelSummary)) (cl : Int) :
    Int :=
  match levels with
  | [] => cl
  | lvl :: rest =>
      match levelMapGet m lvl with
      | none => cl
      | some ls => if ls.allPass then grpcConfWalk rest m lvl else cl

/-- buildReport of the gRPC adapter. -/
def grpcBuildReport (results : List TestResult) (target : String)
    (requestedLevel : Int) (durationMs : Int) (runAt : String) : SuiteReport :=
  let out := grpcAccum results {} [] []
  let summary := out.1
  { testSuiteVersion := "1.0", target := target, runAt := runAt,
    durationMs := durationMs, requestedLevel := requestedLevel,
    results := summary,
    conformant := decide (summary.total > 0) && summary.passed == summary.total,
    conformantLevel := grpcConfWalk [0, 1, 2, 3, 4] summary.byLevel (-1),
    failures := out.2.1, skipped := out.2.2 }

/-! ## Spec-side characterization (for the refinement comparison of claim C2)

These definitions follow the specification text, not the source: the
conformant level is the largest L in [0,4] such that every level up to L has
at least one test and all of its tests passed. -/

/-- Spec wording: level l has at least one test. -/
def specLevelRepresented (results : List TestResult) (l : Int) : Bool :=
  results.any (fun r => r.level == l)

/-- Spec wording: all tests of level l passed. -/
def specLevelAllPassed (results : List TestResult) (l : Int) : Bool :=
  results.all (fun r => !(r.level == l) || r.status == "pass")

/-- Spec wording: level l is represented and all-pass. -/
def specLevelOK (results : List TestResult) (l : Int) : Bool :=
  specLevelRepresented results l && specLevelAllPassed results l

/-- Modelled from the spec: the largest L in [0,4] such that every level
l ≤ L is represented and all-pass; -1 when level 0 already is not. -/
def specConformantLevel (results : List TestResult) : Int :=
  if !specLevelOK results 0 then -1
  else if !specLevelOK results 1 then 0
  else if !specLevelOK results 2 then 1
  else if !specLevelOK results 3 then 2
  else if !specLevelOK results 4 then 3
  else 4

/-! ## Observers and concrete instantiations used by the theorems -/

/-- Success observer for matcher and timing outcomes. -/
def isOkE : Except String Unit → Bool
  | .ok () => true
  | .error _ => false

/-- Success observer for path resolution. -/
def isOkR : Except String Json → Bool
  | .ok _ => true
  | .error _ => false

/-- Success observer for test loading. -/
def isOkLoad : Except String (List TestCase) → Bool
  | .ok _ => true
  | .error _ => false

/-- A concrete regexp-package model for closed instances; none of them
reach a compile call. -/
def rxNone : GoRegex := fun _ => none

/- The Batteries rational operations are irreducible for the elaborator;
the kernel reduces them regardless, and the concrete evaluations below
need the elaborator to follow. -/
attribute [local semireducible] Rat.sub Rat.add Rat.mul Rat.inv Rat.ofScientific

/-! # Claims -/

/-- C7: for every value v, the matcher that is the literal JSON null
succeeds iff v is null; the null case is decided ahead of the string,
number and boolean dispatch, so a null matcher is never accepted as the
zero value of those types (in particular it rejects the empty string, 0
and false). -/
theorem C7_null_matcher_first (rx : GoRegex) (v : Json) :
    MatchAssertion rx Json.null v = Except.ok () ↔ v = Json.null := by
  cases v <;> simp [MatchAssertion, MatchAssertionF, jsizeJ]

/-- C4 counterexample: the claim states that the string matcher `any` fails
on a null value; the code accepts null (its own unit test demands this). -/
theorem C4_counterexample :
    isOkE (MatchAssertion rxNone (Json.str "any") Json.null) = true := by
  decide

/-- C4 amended: the string matcher `any` succeeds unconditionally — for
every value including null/absent. -/
theorem C4_any_matches_everything (rx : GoRegex) (v : Json) :
    MatchAssertion rx (Json.str "any") v = Except.ok () := by
  simp [MatchAssertion, MatchAssertionF, jsizeJ, matchStringAssertion]

/-- C6: the code evaluated at the failing input — the operator object
with the body-empty sentinel set to true accepts a non-empty, non-null
value (the matcher returns success unconditionally), although the
in-repo DSL reference documents it as a check that the body is empty or
null. -/
theorem C6_empty_sentinel_passes_nonempty :
    isOkE (MatchAssertion rxNone
      (Json.obj [("$empty", Json.bool true)]) (Json.str "nonempty")) = true ∧
    isNullJ (Json.str "nonempty") = false := by
  decide

lemma approxCapture_head {l : List Char} {N : ℚ} (h : approxCapture l = some N) :
    ∃ t, l = '~' :: t := by
  cases l with
  | nil => simp [approxCapture, consumeChar] at h
  | cons c t =>
      refine ⟨t, ?_⟩
      by_cases hc : c = '~'
      · rw [hc]
      · simp [approxCapture, consumeChar, hc] at h

lemma goAbsQ_eq_abs (q : ℚ) : goAbsQ q = |q| := by
  unfold goAbsQ
  split
  · exact (abs_of_neg (by assumption)).symm
  · exact (abs_of_nonneg (not_lt.mp (by assumption))).symm

/-- C1 counterexample: the claim says the approximate matcher uses the
tolerance max(N * 50 / 100, 100) so that the matcher string tilde-50
accepts an actual value of 0; the code applies the percentage tolerance
with no 100 ms floor and rejects 0 (|0 - 50| = 50 is within the claimed
tolerance 100 but beyond the implemented tolerance 25). -/
theorem C1_counterexample :
    isOkE (matchStringAssertion rxNone "~50" (Json.num 0)) = false ∧
    |(0 : ℚ) - 50| ≤ max (50 * 50 / 100) 100 := by
  constructor
  · decide
  · norm_num

/-- C1 amended: for every numeric expected value N captured from a
tilde-matcher string and every numeric actual a, the string matcher
succeeds iff |a - N| is at most N * 50 / 100 — the percentage tolerance
alone, with no minimum-tolerance floor (the floor exists only in the
TimingConfig used by timing_ms assertions). -/
theorem C1_approx_tolerance_no_floor (rx : GoRegex) (s : String) (N a : ℚ)
    (h : approxCapture s.data = some N) :
    matchStringAssertion rx s (Json.num a) = Except.ok () ↔
      |a - N| ≤ N * DefaultTimingTolerancePct / 100 := by
  obtain ⟨t, hs⟩ := approxCapture_head h
  rw [hs] at h
  simp only [matchStringAssertion, hs]
  simp only [isPreL, rangeCapture, lengthCapture, consumeLit, h]
  simp only [toFloat64]
  rw [goAbsQ_eq_abs]
  constructor
  · intro hok
    by_contra hgt
    simp only [not_le] at hgt
    simp [hgt] at hok
  · intro hle
    simp [not_lt.mpr hle]

/-- C1 witness: at the matcher string tilde-100 and actual 120, the capture
is 100 and the matcher accepts. -/
theorem C1_witness :
    approxCapture ("~100" : String).data = some 100 ∧
    matchStringAssertion rxNone "~100" (Json.num 120) = Except.ok () := by
  have hcap : approxCapture ("~100" : String).data = some 100 := by decide
  refine ⟨hcap, ?_⟩
  exact (C1_approx_tolerance_no_floor rxNone "~100" 100 120 hcap).mpr (by norm_num [DefaultTimingTolerancePct])

/-! ### C5: duplicate step identifiers at load time -/

/-- A test definition whose two steps share the identifier s1. -/
def tcDup : TestCase :=
  { testId := "T1", level := 0,
    steps := [{ id := "s1", action := "GET" }, { id := "s1", action := "POST" }] }

/-- C5 counterexample: the claim states that a test definition with two
steps sharing an identifier fails to load; the loader accepts it (no
duplicate-identifier validation exists). -/
theorem C5_counterexample :
    isOkLoad (loadTests [{ path := "t.json", isDir := false, parsed := some tcDup }]) = true ∧
    tcDup.steps.map Step.id = ["s1", "s1"] := by
  decide

/-- C5 amended: the loader rejects only unreadable or unparsable files;
any well-formed test definition — duplicate step identifiers included —
loads successfully and proceeds to run. -/
theorem C5_no_duplicate_id_validation (tc : TestCase) (p : String)
    (hjson : isSufL ".json".data p.data = true) :
    loadTests [{ path := p, isDir := false, parsed := some tc }] =
      Except.ok [{ tc with filePath := p }] := by
  simp [loadTests, loadWalk, hjson, sortByTestId, insertByTestId, Except.map]

/-- C5 witness: the duplicate-id test case of the counterexample loads to
exactly itself (with the file path set). -/
theorem C5_witness :
    isSufL ".json".data ("t.json" : String).data = true ∧
    loadTests [{ path := "t.json", isDir := false, parsed := some tcDup }] =
      Except.ok [{ tcDup with filePath := "t.json" }] :=
  ⟨by decide, C5_no_duplicate_id_validation tcDup "t.json" (by decide)⟩

/-! ### C3: teardown execution and verdict independence -/

/-- A bare step result. -/
def srOf (i : String) : StepResult := { stepId := i }

def stepS : Step := { id := "s", action := "GET" }
def stepM : Step := { id := "m", action := "GET" }
def stepT : Step := { id := "t", action := "DELETE" }

/-- A test with one setup step, one main step and one teardown step. -/
def tcFull : TestCase :=
  { testId := "T", level := 0, setup := some ⟨[stepS]⟩, steps := [stepM],
    teardown := some ⟨[stepT]⟩ }

/-- An executeStep oracle whose setup step fails its assertions. -/
def execSetupFail : StepExec := fun step _ =>
  (srOf step.id, if step.id = "s" then [{ stepId := "s", message := "boom" }] else [])

/-- An executeStep oracle whose main step fails its assertions. -/
def execMainFail : StepExec := fun step _ =>
  (srOf step.id, if step.id = "m" then [{ stepId := "m", message := "assert failed" }] else [])

/-- C3 counterexample: the claim states teardown runs regardless of the
verdict, including when a setup step fails; when the setup step fails the
runner returns at once with the error verdict and the teardown step t is
never handed to executeStep (the trace contains only the setup step). -/
theorem C3_counterexample :
    (runTest execSetupFail tcFull).2 = ["s"] ∧
    (runTest execSetupFail tcFull).1.status = "error" := by
  decide

lemma runTeardownSteps_trace (exec : StepExec) (steps : List Step) (m : StepMap) :
    (runTeardownSteps exec steps m).2 = steps.map Step.id := by
  induction steps generalizing m with
  | nil => simp [runTeardownSteps]
  | cons s rest ih => simp [runTeardownSteps, ih]

/-- C3 amended: teardown runs after the main steps whenever the setup
phase completed without failure (in particular whatever the main steps'
verdict is), every teardown step is handed to the executor, and teardown
failures never reach the failure list or the verdict; a failed setup step
instead aborts the test with the error verdict before teardown. -/
theorem C3_teardown_after_clean_setup (exec : StepExec) (tc : TestCase)
    (s t : Setup) (hs : tc.setup = some s) (ht : tc.teardown = some t)
    (hok : (runSetupSteps exec s.steps []).2.2 = none) :
    (runTest exec tc).2 =
      (runSetupSteps exec s.steps []).2.1 ++
      (runMainSteps exec tc.steps (runSetupSteps exec s.steps []).1).2.1 ++
      t.steps.map Step.id ∧
    (runTest exec tc).1.failures =
      (runMainSteps exec tc.steps (runSetupSteps exec s.steps []).1).2.2.2 ∧
    (runTest exec tc).1.status =
      (if 0 < (runMainSteps exec tc.steps (runSetupSteps exec s.steps []).1).2.2.2.length
       then "fail" else "pass") := by
  rcases hrm : runMainSteps exec tc.steps (runSetupSteps exec s.steps []).1 with
    ⟨m2, tr2, srl, fl⟩
  rcases hrs : runSetupSteps exec s.steps [] with ⟨m1, tr1, e⟩
  rw [hrs] at hok hrm
  simp only at hok
  subst hok
  simp [runTest, hs, ht, hrs, hrm, runTeardownSteps_trace]

/-- C3 witness: with a clean setup and a failing main step, the teardown
step still executes (trace s, m, t) and the verdict is fail with exactly
the main step's failure. -/
theorem C3_witness :
    (runTest execMainFail tcFull).2 = ["s", "m", "t"] ∧
    (runTest execMainFail tcFull).1.status = "fail" ∧
    (runTest execMainFail tcFull).1.failures.length = 1 := by
  have h := C3_teardown_after_clean_setup execMainFail tcFull ⟨[stepS]⟩ ⟨[stepT]⟩
    rfl rfl (by decide)
  refine ⟨?_, ?_, ?_⟩
  · rw [h.1]; decide
  · rw [h.2.2]; decide
  · rw [h.2.1]; decide

/-! ### C9: body assertions against an unparsable response body -/

/-- A body block with a top-level $or whose only alternative accepts a null
resolution, next to an ordinary entry that would fail if evaluated. -/
def bodyMapOrAbsent : List (String × Json) :=
  [("$or", Json.arr [Json.obj [("job.id", Json.str "absent")]]),
   ("job.id", Json.str "string:uuid")]

/-- A body block with a top-level $or whose only alternative demands a
value the nil body cannot provide. -/
def bodyMapOrUuid : List (String × Json) :=
  [("$or", Json.arr [Json.obj [("job.id", Json.str "string:uuid")]])]

def stepOrAbsent : Step :=
  { id := "x", action := "GET", assertions := some { body := some bodyMapOrAbsent } }

def stepOrUuid : Step :=
  { id := "x", action := "GET", assertions := some { body := some bodyMapOrUuid } }

/-- The step result of a response whose body failed to parse. -/
def srNilParsed : StepResult := { stepId := "x", parsed := none }

/-- C9 counterexample: the claim states a top-level $or evaluated against
the nil parsed body therefore fails; with a nil parsed body the resolver
reads fields softly as null (a nil Go map reads as empty), so an
alternative whose matchers accept null passes and no failure at all is
produced — while the ordinary uuid entry is skipped as the claim says. -/
theorem C9_counterexample :
    (evaluateAssertions rxNone stepOrAbsent srNilParsed [] DefaultTimingConfig).length = 0 ∧
    srNilParsed.parsed.isNone = true := by
  constructor
  · decide
  · decide

/-- C9 amended: when the parsed body is nil, every ordinary body entry is
skipped (contributing no failure), while the top-level $or section is
still evaluated against the nil parsed body; it fails exactly when no
alternative's entries all pass against that body (field paths resolve
softly to null there, so alternatives accepting null make it pass). -/
theorem C9_nil_body_or_still_evaluated (rx : GoRegex) (srs : StepMap)
    (cfg : TimingConfig) (step : Step) (sr : StepResult)
    (bodyMap : List (String × Json))
    (ha : step.assertions = some { body := some bodyMap })
    (hp : sr.parsed = none) :
    evaluateAssertions rx step sr srs cfg =
      orSectionFailures rx srs step.id bodyMap none := by
  simp [evaluateAssertions, ha, hp]

/-- C9 witness: with the uuid-demanding $or and a nil parsed body, the
whole evaluation reduces to the $or section, which produces exactly one
failure. -/
theorem C9_witness :
    evaluateAssertions rxNone stepOrUuid srNilParsed [] DefaultTimingConfig =
      orSectionFailures rxNone [] "x" bodyMapOrUuid none ∧
    (orSectionFailures rxNone [] "x" bodyMapOrUuid none).length = 1 :=
  ⟨C9_nil_body_or_still_evaluated rxNone [] DefaultTimingConfig stepOrUuid
      srNilParsed bodyMapOrUuid rfl rfl,
    by decide⟩

/-! ### C8: hard and soft failure modes of the path resolver -/

lemma digitsToNat_all {cs : List Char} {n : Nat} (h : digitsToNat cs = some n) :
    cs ≠ [] ∧ ∀ c ∈ cs, isDigitChar c = true := by
  cases cs with
  | nil => simp [digitsToNat] at h
  | cons c t =>
      refine ⟨by simp, ?_⟩
      by_cases hall : (c :: t).all isDigitChar = true
      · exact fun x hx => List.all_eq_true.mp hall x hx
      · simp [digitsToNat, hall] at h

lemma goAtoi_shape {ds : List Char} {i : Int} (h : goAtoi ds = some i) :
    ds ≠ [] ∧ ∀ c ∈ ds, c = '+' ∨ c = '-' ∨ isDigitChar c = true := by
  unfold goAtoi at h
  split at h
  · exact absurd h (by simp)
  · rename_i cs
    obtain ⟨n, hn, -⟩ := Option.map_eq_some'.mp h
    refine ⟨by simp, ?_⟩
    intro c hc
    rcases List.mem_cons.mp hc with rfl | hc
    · exact Or.inl rfl
    · exact Or.inr (Or.inr ((digitsToNat_all hn).2 c hc))
  · rename_i cs
    obtain ⟨n, hn, -⟩ := Option.map_eq_some'.mp h
    refine ⟨by simp, ?_⟩
    intro c hc
    rcases List.mem_cons.mp hc with rfl | hc
    · exact Or.inr (Or.inl rfl)
    · exact Or.inr (Or.inr ((digitsToNat_all hn).2 c hc))
  · obtain ⟨n, hn, -⟩ := Option.map_eq_some'.mp h
    exact ⟨(digitsToNat_all hn).1, fun c hc => Or.inr (Or.inr ((digitsToNat_all hn).2 c hc))⟩

lemma idx_chars_ne {c : Char} (h : c = '+' ∨ c = '-' ∨ isDigitChar c = true) :
    c ≠ '[' ∧ c ≠ ']' ∧ c ≠ '.' ∧ c ≠ '*' ∧ c ≠ '?' := by
  rcases h with rfl | rfl | h
  · exact ⟨by decide, by decide, by decide, by decide, by decide⟩
  · exact ⟨by decide, by decide, by decide, by decide, by decide⟩
  · refine ⟨?_, ?_, ?_, ?_, ?_⟩ <;> (rintro rfl; exact absurd h (by decide))

lemma splitAux_nodot (ds : List Char) (h : ∀ c ∈ ds, c ≠ '.') :
    ∀ cur depth, splitJSONPathAux ds cur depth =
      if 0 < (cur ++ ds).length then [cur ++ ds] else [] := by
  induction ds with
  | nil =>
      intro cur depth
      simp [splitJSONPathAux]
  | cons c t ih =>
      intro cur depth
      have hc : c ≠ '.' := h c (by simp)
      have ht : ∀ x ∈ t, x ≠ '.' := fun x hx => h x (by simp [hx])
      simp only [splitJSONPathAux]
      by_cases h1 : c = '['
      · subst h1
        rw [if_pos (by simp)]
        rw [ih ht]
        simp
      · rw [if_neg (by simp [h1])]
        by_cases h2 : c = ']'
        · subst h2
          rw [if_pos (by simp)]
          rw [ih ht]
          simp
        · rw [if_neg (by simp [h2]), if_neg (by simp [hc])]
          rw [ih ht]
          simp

lemma splitJSONPath_single (p : List Char) (hne : p ≠ []) (h : ∀ c ∈ p, c ≠ '.') :
    splitJSONPath p = [p] := by
  unfold splitJSONPath
  rw [splitAux_nodot p h [] 0]
  simp [List.length_pos, hne]

lemma stripDollarDot_nodot (p : List Char) (h : ∀ c ∈ p, c ≠ '.') :
    stripDollarDot p = p := by
  unfold stripDollarDot
  rcases p with _ | ⟨c1, _ | ⟨c2, t⟩⟩
  · rfl
  · simp [isPreL]
  · have h2 : c2 ≠ '.' := h c2 (by simp)
    simp [isPreL, Ne.symm h2]

lemma idxOfChar_none {x : Char} {ds : List Char} (h : ∀ c ∈ ds, c ≠ x) :
    idxOfChar x ds = none := by
  induction ds with
  | nil => rfl
  | cons c t ih =>
      have hc : c ≠ x := h c (by simp)
      have ht : ∀ y ∈ t, y ≠ x := fun y hy => h y (by simp [hy])
      simp [idxOfChar, hc, ih ht]

lemma idxOfChar_found {x : Char} (ds rest : List Char) (h : ∀ c ∈ ds, c ≠ x) :
    idxOfChar x (ds ++ x :: rest) = some ds.length := by
  induction ds with
  | nil => simp [idxOfChar]
  | cons c t ih =>
      have hc : c ≠ x := h c (by simp)
      have ht : ∀ y ∈ t, y ≠ x := fun y hy => h y (by simp [hy])
      simp [idxOfChar, hc, ih ht]

lemma drop_len_succ (ds : List Char) (c : Char) :
    (ds ++ [c]).drop (ds.length + 1) = [] := by
  have h : (ds ++ [c]).length = ds.length + 1 := by simp
  rw [← h, List.drop_length]

lemma fuel_ge (a b : Nat) : 4 ≤ 4 * (a + 2) * (b + 2) := by
  have h1 : 4 * 1 * 1 ≤ 4 * (a + 2) * (b + 2) :=
    Nat.mul_le_mul (Nat.mul_le_mul (Nat.le_refl 4) (by omega)) (by omega)
  simpa using h1

lemma resolveBrackets_index (j : Nat) (ds : List Char) (i : Int) (items : List Json)
    (later : List (List Char)) (h : goAtoi ds = some i)
    (hcl : ∀ c ∈ ds, c ≠ ']') (hstar : ds ≠ ['*']) :
    resolveBrackets ((j + 1) + 1) ('[' :: (ds ++ [']'])) (Json.arr items) later =
      (if i < 0 ∨ (items.length : Int) ≤ i
       then Except.error "array index out of bounds"
       else Except.ok (BracketOut.cont (items.getD i.toNat Json.null))) := by
  have hfind : idxOfChar ']' ('[' :: (ds ++ [']'])) = some (ds.length + 1) := by
    have hmem : ∀ c ∈ '[' :: ds, c ≠ ']' := by
      intro c hc
      rcases List.mem_cons.mp hc with rfl | hc
      · decide
      · exact hcl c hc
    have := idxOfChar_found ('[' :: ds) [] hmem
    simpa using this
  simp only [resolveBrackets, hfind, h]
  simp only [isPreL, List.take_succ_cons, List.take_left, List.drop_succ_cons,
    drop_len_succ]
  simp [hstar, resolveBrackets, h]

lemma resolveBrackets_index_nonarr (j : Nat) (ds : List Char) (i : Int) (v : Json)
    (later : List (List Char)) (h : goAtoi ds = some i)
    (hcl : ∀ c ∈ ds, c ≠ ']') (hstar : ds ≠ ['*']) (hv : ∀ a, v ≠ Json.arr a) :
    resolveBrackets (j + 1) ('[' :: (ds ++ [']'])) v later =
      Except.error "expected array at index" := by
  have hfind : idxOfChar ']' ('[' :: (ds ++ [']'])) = some (ds.length + 1) := by
    have hmem : ∀ c ∈ '[' :: ds, c ≠ ']' := by
      intro c hc
      rcases List.mem_cons.mp hc with rfl | hc
      · decide
      · exact hcl c hc
    have := idxOfChar_found ('[' :: ds) [] hmem
    simpa using this
  cases v with
  | arr a => exact absurd rfl (hv a)
  | null =>
      simp only [resolveBrackets, hfind, h]
      simp only [isPreL, List.take_succ_cons, List.take_left, List.drop_succ_cons,
        drop_len_succ]
      simp [hstar, h]
  | bool b =>
      simp only [resolveBrackets, hfind, h]
      simp only [isPreL, List.take_succ_cons, List.take_left, List.drop_succ_cons,
        drop_len_succ]
      simp [hstar, h]
  | num q =>
      simp only [resolveBrackets, hfind, h]
      simp only [isPreL, List.take_succ_cons, List.take_left, List.drop_succ_cons,
        drop_len_succ]
      simp [hstar, h]
  | str s =>
      simp only [resolveBrackets, hfind, h]
      simp only [isPreL, List.take_succ_cons, List.take_left, List.drop_succ_cons,
        drop_len_succ]
      simp [hstar, h]
  | obj o =>
      simp only [resolveBrackets, hfind, h]
      simp only [isPreL, List.take_succ_cons, List.take_left, List.drop_succ_cons,
        drop_len_succ]
      simp [hstar, h]

/-- C8: in the path resolver, a literal integer index applied to an array of
length L is a hard failure exactly when the index is negative or at least L,
and otherwise returns the indexed element; a dot-segment naming a field that
an object lacks resolves to null with no error (soft); a dot-segment applied
to a non-object value, and a literal index applied to a non-array value, are
hard failures. -/
theorem C8_resolver_failure_modes :
    (∀ ds i items, goAtoi ds = some i →
       ResolveJSONPath ('[' :: (ds ++ [']'])) (Json.arr items) =
         (if i < 0 ∨ (items.length : Int) ≤ i
          then Except.error "array index out of bounds"
          else Except.ok (items.getD i.toNat Json.null)))
  ∧ (∀ part fields, part ≠ [] → (∀ c ∈ part, c ≠ '[' ∧ c ≠ '.') →
       lookupField fields (String.mk part) = none →
       ResolveJSONPath part (Json.obj fields) = Except.ok Json.null)
  ∧ (∀ part v, part ≠ [] → (∀ c ∈ part, c ≠ '[' ∧ c ≠ '.') →
       (∀ o, v ≠ Json.obj o) →
       ResolveJSONPath part v = Except.error "expected object at segment")
  ∧ (∀ ds i v, goAtoi ds = some i → (∀ a, v ≠ Json.arr a) →
       ResolveJSONPath ('[' :: (ds ++ [']'])) v =
         Except.error "expected array at index") := by
  have keyfacts : ∀ {ds : List Char} {i : Int}, goAtoi ds = some i →
      (∃ d0 dt, ds = d0 :: dt) ∧
      (∀ c ∈ ds, c ≠ '[' ∧ c ≠ ']' ∧ c ≠ '.' ∧ c ≠ '*' ∧ c ≠ '?') := by
    intro ds i h
    obtain ⟨hne, hcls⟩ := goAtoi_shape h
    refine ⟨?_, fun c hc => idx_chars_ne (hcls c hc)⟩
    cases ds with
    | nil => exact absurd rfl hne
    | cons a b => exact ⟨a, b, rfl⟩
  have pathfacts : ∀ (ds : List Char),
      (∀ c ∈ ds, c ≠ '[' ∧ c ≠ ']' ∧ c ≠ '.' ∧ c ≠ '*' ∧ c ≠ '?') →
      (∀ c ∈ ('[' :: (ds ++ [']'])), c ≠ '.') ∧
      stripDollarDot ('[' :: (ds ++ [']'])) = '[' :: (ds ++ [']']) ∧
      splitJSONPath ('[' :: (ds ++ [']'])) = ['[' :: (ds ++ [']'])] ∧
      ds ≠ ['*'] := by
    intro ds hds
    have hnd : ∀ c ∈ ('[' :: (ds ++ [']'])), c ≠ '.' := by
      intro c hc
      rcases List.mem_cons.mp hc with rfl | hc
      · decide
      · rcases List.mem_append.mp hc with hc | hc
        · exact (hds c hc).2.2.1
        · rcases List.mem_singleton.mp hc with rfl
          decide
    refine ⟨hnd, stripDollarDot_nodot _ hnd, splitJSONPath_single _ (by simp) hnd, ?_⟩
    intro heq
    rw [heq] at hds
    exact (hds '*' (by simp)).2.2.2.1 rfl
  refine ⟨?_, ?_, ?_, ?_⟩
  · intro ds i items h
    obtain ⟨⟨d0, dt, rfl⟩, hds⟩ := keyfacts h
    obtain ⟨hnd, hstrip, hsplit, hstar⟩ := pathfacts _ hds
    have h7 : ('?' == d0) = false :=
      beq_eq_false_iff_ne.mpr (Ne.symm (hds d0 (by simp)).2.2.2.2)
    unfold ResolveJSONPath
    rw [hstrip, hsplit]
    obtain ⟨k, hk⟩ : ∃ k,
        4 * ((('[' :: ((d0 :: dt) ++ [']'])).length) + 2) *
          (jsizeJ (Json.arr items) + 2) = ((k + 1) + 1) + 1 := by
      refine ⟨4 * ((('[' :: ((d0 :: dt) ++ [']'])).length) + 2) *
        (jsizeJ (Json.arr items) + 2) - 3, ?_⟩
      have := fuel_ge (('[' :: ((d0 :: dt) ++ [']'])).length) (jsizeJ (Json.arr items))
      omega
    rw [hk]
    have hrb := resolveBrackets_index k (d0 :: dt) i items [] h
      (fun c hc => (hds c hc).2.1) hstar
    by_cases hb : i < 0 ∨ (items.length : Int) ≤ i
    · rw [if_pos hb]
      rw [if_pos hb] at hrb
      have hrb2 : resolveBrackets (k + 2) ('[' :: d0 :: (dt ++ [']']))
          (Json.arr items) [] = Except.error "array index out of bounds" := hrb
      simp [resolveParts, idxOfChar, isPreL, h7, hrb2]
    · rw [if_neg hb]
      rw [if_neg hb] at hrb
      have hrb2 : resolveBrackets (k + 2) ('[' :: d0 :: (dt ++ [']']))
          (Json.arr items) [] =
          Except.ok (BracketOut.cont (items.getD i.toNat Json.null)) := hrb
      simp [resolveParts, idxOfChar, isPreL, h7, hrb2]
  · intro part fields hne hchars hlook
    obtain ⟨p0, pt, rfl⟩ : ∃ p0 pt, part = p0 :: pt := by
      cases part with
      | nil => exact absurd rfl hne
      | cons a b => exact ⟨a, b, rfl⟩
    have hnd : ∀ c ∈ (p0 :: pt), c ≠ '.' := fun c hc => (hchars c hc).2
    have hnb : idxOfChar '[' (p0 :: pt) = none :=
      idxOfChar_none (fun c hc => (hchars c hc).1)
    unfold ResolveJSONPath
    rw [stripDollarDot_nodot _ hnd, splitJSONPath_single _ hne hnd]
    obtain ⟨k, hk⟩ : ∃ k,
        4 * ((p0 :: pt).length + 2) * (jsizeJ (Json.obj fields) + 2) = k + 1 := by
      refine ⟨4 * ((p0 :: pt).length + 2) * (jsizeJ (Json.obj fields) + 2) - 1, ?_⟩
      have := fuel_ge ((p0 :: pt).length) (jsizeJ (Json.obj fields))
      omega
    rw [hk]
    simp [resolveParts, hnb, hlook]
  · intro part v hne hchars hv
    obtain ⟨p0, pt, rfl⟩ : ∃ p0 pt, part = p0 :: pt := by
      cases part with
      | nil => exact absurd rfl hne
      | cons a b => exact ⟨a, b, rfl⟩
    have hnd : ∀ c ∈ (p0 :: pt), c ≠ '.' := fun c hc => (hchars c hc).2
    have hnb : idxOfChar '[' (p0 :: pt) = none :=
      idxOfChar_none (fun c hc => (hchars c hc).1)
    unfold ResolveJSONPath
    rw [stripDollarDot_nodot _ hnd, splitJSONPath_single _ hne hnd]
    obtain ⟨k, hk⟩ : ∃ k,
        4 * ((p0 :: pt).length + 2) * (jsizeJ v + 2) = k + 1 := by
      refine ⟨4 * ((p0 :: pt).length + 2) * (jsizeJ v + 2) - 1, ?_⟩
      have := fuel_ge ((p0 :: pt).length) (jsizeJ v)
      omega
    rw [hk]
    cases v with
    | obj o => exact absurd rfl (hv o)
    | null => simp [resolveParts, hnb]
    | bool b => simp [resolveParts, hnb]
    | num q => simp [resolveParts, hnb]
    | str s => simp [resolveParts, hnb]
    | arr a => simp [resolveParts, hnb]
  · intro ds i v h hv
    obtain ⟨⟨d0, dt, rfl⟩, hds⟩ := keyfacts h
    obtain ⟨hnd, hstrip, hsplit, hstar⟩ := pathfacts _ hds
    have h7 : ('?' == d0) = false :=
      beq_eq_false_iff_ne.mpr (Ne.symm (hds d0 (by simp)).2.2.2.2)
    unfold ResolveJSONPath
    rw [hstrip, hsplit]
    obtain ⟨k, hk⟩ : ∃ k,
        4 * ((('[' :: ((d0 :: dt) ++ [']'])).length) + 2) * (jsizeJ v + 2) =
          (k + 1) + 1 := by
      refine ⟨4 * ((('[' :: ((d0 :: dt) ++ [']'])).length) + 2) * (jsizeJ v + 2) - 2, ?_⟩
      have := fuel_ge (('[' :: ((d0 :: dt) ++ [']'])).length) (jsizeJ v)
      omega
    rw [hk]
    have hrb := resolveBrackets_index_nonarr k (d0 :: dt) i v [] h
      (fun c hc => (hds c hc).2.1) hstar hv
    have hrb2 : resolveBrackets (k + 1) ('[' :: d0 :: (dt ++ [']'])) v [] =
        Except.error "expected array at index" := hrb
    simp [resolveParts, idxOfChar, isPreL, h7, hrb2]

/-! ### C2: the conformance level of the report aggregators

Per-level counting observers used to characterize the accumulation loops. -/

/-- Number of results at a level. -/
def cntL (rs : List TestResult) (l : Int) : Int :=
  ((rs.filter (fun r => r.level == l)).length : Int)

/-- Number of passing results at a level. -/
def cntLP (rs : List TestResult) (l : Int) : Int :=
  ((rs.filter (fun r => r.level == l && r.status == "pass")).length : Int)

lemma cntL_cons (r : TestResult) (rest : List TestResult) (l : Int) :
    cntL (r :: rest) l = (if r.level = l then 1 else 0) + cntL rest l := by
  by_cases h : r.level = l <;>
    simp [cntL, List.filter_cons, h] <;> omega

lemma cntLP_cons (r : TestResult) (rest : List TestResult) (l : Int) :
    cntLP (r :: rest) l =
      (if r.level = l ∧ r.status = "pass" then 1 else 0) + cntLP rest l := by
  by_cases h1 : r.level = l <;> by_cases h2 : r.status = "pass" <;>
    simp [cntLP, List.filter_cons, h1, h2] <;> omega

lemma cnt_not_repr {rs : List TestResult} {l : Int}
    (h : specLevelRepresented rs l = false) : cntL rs l = 0 ∧ cntLP rs l = 0 := by
  have h' : ∀ r ∈ rs, ¬(r.level = l) := by
    simpa [specLevelRepresented] using h
  constructor
  · have hnil : rs.filter (fun r => r.level == l) = [] :=
      List.filter_eq_nil.mpr (fun a ha => by simp [h' a ha])
    simp [cntL, hnil]
  · have hnil : rs.filter (fun r => r.level == l && r.status == "pass") = [] :=
      List.filter_eq_nil.mpr (fun a ha => by simp [h' a ha])
    simp [cntLP, hnil]

lemma cnt_repr_pos {rs : List TestResult} {l : Int}
    (h : specLevelRepresented rs l = true) : 0 < cntL rs l := by
  obtain ⟨r, hr, he⟩ : ∃ r ∈ rs, r.level = l := by
    simpa [specLevelRepresented] using h
  have hm : r ∈ rs.filter (fun r => r.level == l) :=
    List.mem_filter.mpr ⟨hr, by simp [he]⟩
  have hlen : 0 < (rs.filter (fun r => r.level == l)).length :=
    List.length_pos.mpr (fun hnil => by rw [hnil] at hm; exact absurd hm (List.not_mem_nil r))
  unfold cntL
  exact_mod_cast hlen

lemma cntLP_le (rs : List TestResult) (l : Int) : cntLP rs l ≤ cntL rs l := by
  induction rs with
  | nil => simp [cntLP, cntL]
  | cons r rest ih =>
      rw [cntL_cons, cntLP_cons]
      by_cases h1 : r.level = l
      · by_cases h2 : r.status = "pass" <;> simp [h1, h2] <;> omega
      · simp [h1] ; omega

lemma cnt_all_passed (rs : List TestResult) (l : Int) :
    specLevelAllPassed rs l = true ↔ cntLP rs l = cntL rs l := by
  induction rs with
  | nil => simp [specLevelAllPassed, cntLP, cntL]
  | cons r rest ih =>
      have hle := cntLP_le rest l
      rw [cntL_cons, cntLP_cons]
      have hall : specLevelAllPassed (r :: rest) l =
          ((!(r.level == l) || r.status == "pass") && specLevelAllPassed rest l) := by
        simp [specLevelAllPassed]
      rw [hall]
      by_cases h1 : r.level = l
      · by_cases h2 : r.status = "pass"
        · simp only [h1, h2, if_pos (And.intro rfl rfl)]
          simp [ih]
        · simp [h1, h2, ih]
          omega
      · simp [h1, ih]

lemma levelMapGet_set_eq (m : List (Int × LevelSummary)) (key : Int)
    (v : LevelSummary) : levelMapGet (levelMapSet m key v) key = some v := by
  induction m with
  | nil => simp [levelMapSet, levelMapGet]
  | cons kv rest ih =>
      obtain ⟨k, w⟩ := kv
      by_cases hk : k = key
      · subst hk
        simp [levelMapSet, levelMapGet]
      · simp [levelMapSet, levelMapGet, hk, ih]

lemma levelMapGet_set_ne (m : List (Int × LevelSummary)) (key l : Int)
    (v : LevelSummary) (h : key ≠ l) :
    levelMapGet (levelMapSet m key v) l = levelMapGet m l := by
  induction m with
  | nil => simp [levelMapSet, levelMapGet, h]
  | cons kv rest ih =>
      obtain ⟨k, w⟩ := kv
      by_cases hk : k = key
      · subst hk
        simp [levelMapSet, levelMapGet, h]
      · simp [levelMapSet, levelMapGet, hk, ih]

/-- One step of the gRPC accumulation loop: the by-level map gains, at the
result's level, an entry whose counters advance per the verdict and whose
AllPass is recomputed as "positive total and passed equals total". -/
lemma grpcAccum_cons (r : TestResult) (rest : List TestResult)
    (s : ResultsSummary) (f k : List TestResult) :
    ∃ s2 f2 k2, grpcAccum (r :: rest) s f k = grpcAccum rest s2 f2 k2 ∧
      s2.byLevel = levelMapSet s.byLevel r.level
        { total := (levelMapGetZ s.byLevel r.level).total + 1,
          passed := (levelMapGetZ s.byLevel r.level).passed +
            (if r.status = "pass" then 1 else 0),
          failed := (levelMapGetZ s.byLevel r.level).failed +
            (if r.status = "pass" ∨ r.status = "skip" ∨ r.status = "error"
             then 0 else 1),
          skipped := (levelMapGetZ s.byLevel r.level).skipped +
            (if r.status = "skip" then 1 else 0),
          errored := (levelMapGetZ s.byLevel r.level).errored +
            (if r.status = "error" then 1 else 0),
          allPass := decide ((levelMapGetZ s.byLevel r.level).total + 1 > 0) &&
            ((levelMapGetZ s.byLevel r.level).passed +
              (if r.status = "pass" then 1 else 0) ==
              (levelMapGetZ s.byLevel r.level).total + 1) } ∧
      s2.total = s.total + 1 ∧
      s2.passed = s.passed + (if r.status = "pass" then 1 else 0) := by
  refine ⟨{ s with
      total := s.total + 1
      passed := s.passed + (if r.status = "pass" then 1 else 0)
      failed := s.failed +
        (if r.status = "pass" ∨ r.status = "skip" ∨ r.status = "error"
         then 0 else 1)
      skipped := s.skipped + (if r.status = "skip" then 1 else 0)
      errored := s.errored + (if r.status = "error" then 1 else 0)
      byLevel := levelMapSet s.byLevel r.level
        { total := (levelMapGetZ s.byLevel r.level).total + 1,
          passed := (levelMapGetZ s.byLevel r.level).passed +
            (if r.status = "pass" then 1 else 0),
          failed := (levelMapGetZ s.byLevel r.level).failed +
            (if r.status = "pass" ∨ r.status = "skip" ∨ r.status = "error"
             then 0 else 1),
          skipped := (levelMapGetZ s.byLevel r.level).skipped +
            (if r.status = "skip" then 1 else 0),
          errored := (levelMapGetZ s.byLevel r.level).errored +
            (if r.status = "error" then 1 else 0),
          allPass := decide ((levelMapGetZ s.byLevel r.level).total + 1 > 0) &&
            ((levelMapGetZ s.byLevel r.level).passed +
              (if r.status = "pass" then 1 else 0) ==
              (levelMapGetZ s.byLevel r.level).total + 1) } },
    (if r.status = "pass" ∨ r.status = "skip" then f else f ++ [r]),
    (if r.status = "skip" then k ++ [r] else k), ?_, rfl, rfl, rfl⟩
  by_cases hp : r.status = "pass"
  · simp [grpcAccum, hp]
  · by_cases hs : r.status = "skip"
    · simp [grpcAccum, hp, hs]
    · by_cases he : r.status = "error"
      · simp [grpcAccum, hp, hs, he]
      · simp [grpcAccum, hp, hs, he]

/-- The gRPC accumulation characterized per level: an unrepresented level
keeps the incoming entry; a represented level carries an entry whose total
and passed are the incoming totals plus the level's counts, with AllPass
recomputed from them. -/
lemma grpcAccum_entry (rs : List TestResult) :
    ∀ (s : ResultsSummary) (f k : List TestResult) (l : Int),
    (specLevelRepresented rs l = false ∧
       levelMapGet (grpcAccum rs s f k).1.byLevel l = levelMapGet s.byLevel l) ∨
    (specLevelRepresented rs l = true ∧
       ∃ ls, levelMapGet (grpcAccum rs s f k).1.byLevel l = some ls ∧
         ls.total = (levelMapGetZ s.byLevel l).total + cntL rs l ∧
         ls.passed = (levelMapGetZ s.byLevel l).passed + cntLP rs l ∧
         ls.allPass = (decide (ls.total > 0) && ls.passed == ls.total)) := by
  induction rs with
  | nil =>
      intro s f k l
      left
      exact ⟨rfl, rfl⟩
  | cons r rest ih =>
      intro s f k l
      obtain ⟨s2, f2, k2, hstep, hby, -, -⟩ := grpcAccum_cons r rest s f k
      rw [hstep]
      by_cases hlv : r.level = l
      · subst hlv
        have hrep : specLevelRepresented (r :: rest) r.level = true := by
          simp [specLevelRepresented]
        obtain ⟨W, hbyW, hWt, hWp, hWa⟩ :
            ∃ W, s2.byLevel = levelMapSet s.byLevel r.level W ∧
              W.total = (levelMapGetZ s.byLevel r.level).total + 1 ∧
              W.passed = (levelMapGetZ s.byLevel r.level).passed +
                (if r.status = "pass" then 1 else 0) ∧
              W.allPass = (decide (W.total > 0) && W.passed == W.total) :=
          ⟨_, hby, rfl, rfl, rfl⟩
        have hsome : levelMapGet s2.byLevel r.level = some W := by
          rw [hbyW, levelMapGet_set_eq]
        have hgetz : levelMapGetZ s2.byLevel r.level = W := by
          rw [levelMapGetZ, hsome]
          rfl
        rcases ih s2 f2 k2 r.level with ⟨hnr, hget⟩ | ⟨hr, ls, hget, ht, hpp, ha⟩
        · obtain ⟨hc0, hcp0⟩ := cnt_not_repr hnr
          right
          refine ⟨hrep, W, by rw [hget, hsome], ?_, ?_, hWa⟩
          · have h1 : (if r.level = r.level then (1 : Int) else 0) = 1 := if_pos rfl
            rw [hWt, cntL_cons, h1, hc0]
            omega
          · by_cases hst : r.status = "pass"
            · have h2 : (if r.level = r.level ∧ r.status = "pass" then (1 : Int) else 0) = 1 :=
                if_pos ⟨rfl, hst⟩
              rw [hWp, cntLP_cons, h2, hcp0, if_pos hst]
              omega
            · have h2 : (if r.level = r.level ∧ r.status = "pass" then (1 : Int) else 0) = 0 :=
                if_neg (fun hc => hst hc.2)
              rw [hWp, cntLP_cons, h2, hcp0, if_neg hst]
              omega
        · right
          refine ⟨hrep, ls, hget, ?_, ?_, ha⟩
          · have h1 : (if r.level = r.level then (1 : Int) else 0) = 1 := if_pos rfl
            rw [ht, hgetz, hWt, cntL_cons, h1]
            omega
          · by_cases hst : r.status = "pass"
            · have h2 : (if r.level = r.level ∧ r.status = "pass" then (1 : Int) else 0) = 1 :=
                if_pos ⟨rfl, hst⟩
              rw [hpp, hgetz, hWp, cntLP_cons, h2, if_pos hst]
              omega
            · have h2 : (if r.level = r.level ∧ r.status = "pass" then (1 : Int) else 0) = 0 :=
                if_neg (fun hc => hst hc.2)
              rw [hpp, hgetz, hWp, cntLP_cons, h2, if_neg hst]
              omega
      · have hrep2 : specLevelRepresented (r :: rest) l = specLevelRepresented rest l := by
          simp [specLevelRepresented, hlv]
        have hgets : levelMapGet s2.byLevel l = levelMapGet s.byLevel l := by
          rw [hby, levelMapGet_set_ne _ _ _ _ hlv]
        have hgetz2 : levelMapGetZ s2.byLevel l = levelMapGetZ s.byLevel l := by
          rw [levelMapGetZ, levelMapGetZ, hgets]
        have hc : cntL (r :: rest) l = cntL rest l := by
          rw [cntL_cons, if_neg hlv]
          omega
        have hcp : cntLP (r :: rest) l = cntLP rest l := by
          rw [cntLP_cons, if_neg (fun hcon => hlv hcon.1)]
          omega
        rcases ih s2 f2 k2 l with ⟨hnr, hget⟩ | ⟨hr, ls, hget, ht, hpp, ha⟩
        · left
          refine ⟨by rw [hrep2]; exact hnr, by rw [hget, hgets]⟩
        · right
          refine ⟨by rw [hrep2]; exact hr, ls, hget, ?_, ?_, ha⟩
          · rw [ht, hgetz2, hc]
          · rw [hpp, hgetz2, hcp]

/-- The gRPC by-level map at a level: absent exactly when the level is
unrepresented, and carrying AllPass equal to the spec-side "represented and
all passed" predicate when present. -/
lemma grpc_level_facts (results : List TestResult) (l : Int) :
    (specLevelRepresented results l = false →
       levelMapGet (grpcAccum results {} [] []).1.byLevel l = none) ∧
    (specLevelRepresented results l = true →
       ∃ ls, levelMapGet (grpcAccum results {} [] []).1.byLevel l = some ls ∧
         ls.allPass = specLevelOK results l) := by
  rcases grpcAccum_entry results {} [] [] l with ⟨hnr, hget⟩ | ⟨hr, ls, hget, ht, hp, ha⟩
  · constructor
    · intro _
      rw [hget]
      rfl
    · intro h
      rw [h] at hnr
      cases hnr
  · constructor
    · intro h
      rw [h] at hr
      cases hr
    · intro _
      refine ⟨ls, hget, ?_⟩
      have ht' : ls.total = cntL results l := by
        rw [ht]
        simp [levelMapGetZ, levelMapGet]
      have hp' : ls.passed = cntLP results l := by
        rw [hp]
        simp [levelMapGetZ, levelMapGet]
      have hpos : 0 < cntL results l := cnt_repr_pos hr
      rw [ha, ht', hp']
      unfold specLevelOK
      rw [hr]
      simp only [Bool.true_and]
      have hdec : decide (cntL results l > 0) = true := decide_eq_true hpos
      rw [hdec]
      simp only [Bool.true_and]
      rcases hAP : specLevelAllPassed results l
      · rw [beq_eq_false_iff_ne]
        intro he
        rw [(cnt_all_passed results l).mpr he] at hAP
        cases hAP
      · exact beq_iff_eq.mpr ((cnt_all_passed results l).mp hAP)

lemma grpcConfWalk_stop (lvl : Int) (rest : List Int)
    (m : List (Int × LevelSummary)) (cl : Int)
    (h : ∀ ls, levelMapGet m lvl = some ls → ls.allPass = false) :
    grpcConfWalk (lvl :: rest) m cl = cl := by
  unfold grpcConfWalk
  cases hm : levelMapGet m lvl with
  | none => rfl
  | some ls => simp [h ls hm]

lemma grpcConfWalk_step (lvl : Int) (rest : List Int)
    (m : List (Int × LevelSummary)) (cl : Int) (ls : LevelSummary)
    (hget : levelMapGet m lvl = some ls) (hap : ls.allPass = true) :
    grpcConfWalk (lvl :: rest) m cl = grpcConfWalk rest m lvl := by
  conv_lhs => rw [grpcConfWalk]
  simp [hget, hap]

lemma bool_false_of_not_true {b : Bool} (h : ¬(b = true)) : b = false := by
  cases b
  · rfl
  · exact absurd rfl h

/-- The gRPC conformance walk computes exactly the spec-side conformant
level. -/
lemma grpcWalk_spec (results : List TestResult) :
    grpcConfWalk [0, 1, 2, 3, 4] (grpcAccum results {} [] []).1.byLevel (-1) =
      specConformantLevel results := by
  have hf := grpc_level_facts results
  have key : ∀ (lvl : Int) (rest : List Int) (cl : Int),
      (specLevelOK results lvl = true →
        grpcConfWalk (lvl :: rest) (grpcAccum results {} [] []).1.byLevel cl =
          grpcConfWalk rest (grpcAccum results {} [] []).1.byLevel lvl) ∧
      (specLevelOK results lvl = false →
        grpcConfWalk (lvl :: rest) (grpcAccum results {} [] []).1.byLevel cl = cl) := by
    intro lvl rest cl
    constructor
    · intro hOK
      have hr : specLevelRepresented results lvl = true := by
        have h' := hOK
        unfold specLevelOK at h'
        simp only [Bool.and_eq_true] at h'
        exact h'.1
      obtain ⟨ls, hget, hap⟩ := (hf lvl).2 hr
      exact grpcConfWalk_step lvl rest _ cl ls hget (by rw [hap, hOK])
    · intro hOK
      by_cases hr : specLevelRepresented results lvl = true
      · obtain ⟨ls, hget, hap⟩ := (hf lvl).2 hr
        refine grpcConfWalk_stop lvl rest _ cl (fun ls' hget' => ?_)
        rw [hget] at hget'
        cases hget'
        rw [hap, hOK]
      · have hget := (hf lvl).1 (bool_false_of_not_true hr)
        refine grpcConfWalk_stop lvl rest _ cl (fun ls' hget' => ?_)
        rw [hget] at hget'
        cases hget'
  by_cases h0 : specLevelOK results 0 = true
  · rw [(key 0 _ _).1 h0]
    by_cases h1 : specLevelOK results 1 = true
    · rw [(key 1 _ _).1 h1]
      by_cases h2 : specLevelOK results 2 = true
      · rw [(key 2 _ _).1 h2]
        by_cases h3 : specLevelOK results 3 = true
        · rw [(key 3 _ _).1 h3]
          by_cases h4 : specLevelOK results 4 = true
          · rw [(key 4 _ _).1 h4]
            simp [grpcConfWalk, specConformantLevel, h0, h1, h2, h3, h4]
          · rw [(key 4 _ _).2 (bool_false_of_not_true h4)]
            simp [specConformantLevel, h0, h1, h2, h3, bool_false_of_not_true h4]
        · rw [(key 3 _ _).2 (bool_false_of_not_true h3)]
          simp [specConformantLevel, h0, h1, h2, bool_false_of_not_true h3]
      · rw [(key 2 _ _).2 (bool_false_of_not_true h2)]
        simp [specConformantLevel, h0, h1, bool_false_of_not_true h2]
    · rw [(key 1 _ _).2 (bool_false_of_not_true h1)]
      simp [specConformantLevel, h0, bool_false_of_not_true h1]
  · rw [(key 0 _ _).2 (bool_false_of_not_true h0)]
    simp [specConformantLevel, bool_false_of_not_true h0]

/-! Further counting observers, for the HTTP aggregator (claim C10). -/

/-- Number of failing results at a level. -/
def cntLF (rs : List TestResult) (l : Int) : Int :=
  ((rs.filter (fun r => r.level == l && r.status == "fail")).length : Int)

/-- Number of errored results at a level. -/
def cntLE (rs : List TestResult) (l : Int) : Int :=
  ((rs.filter (fun r => r.level == l && r.status == "error")).length : Int)

/-- Suite-wide status counts. -/
def cP (rs : List TestResult) : Int :=
  ((rs.filter (fun r => r.status == "pass")).length : Int)

def cF (rs : List TestResult) : Int :=
  ((rs.filter (fun r => r.status == "fail")).length : Int)

def cE (rs : List TestResult) : Int :=
  ((rs.filter (fun r => r.status == "error")).length : Int)

lemma cntLF_cons (r : TestResult) (rest : List TestResult) (l : Int) :
    cntLF (r :: rest) l =
      (if r.level = l ∧ r.status = "fail" then 1 else 0) + cntLF rest l := by
  by_cases h1 : r.level = l <;> by_cases h2 : r.status = "fail" <;>
    simp [cntLF, List.filter_cons, h1, h2] <;> omega

lemma cntLE_cons (r : TestResult) (rest : List TestResult) (l : Int) :
    cntLE (r :: rest) l =
      (if r.level = l ∧ r.status = "error" then 1 else 0) + cntLE rest l := by
  by_cases h1 : r.level = l <;> by_cases h2 : r.status = "error" <;>
    simp [cntLE, List.filter_cons, h1, h2] <;> omega

lemma cP_cons (r : TestResult) (rest : List TestResult) :
    cP (r :: rest) = (if r.status = "pass" then 1 else 0) + cP rest := by
  by_cases h : r.status = "pass" <;> simp [cP, List.filter_cons, h] <;> omega

lemma cF_cons (r : TestResult) (rest : List TestResult) :
    cF (r :: rest) = (if r.status = "fail" then 1 else 0) + cF rest := by
  by_cases h : r.status = "fail" <;> simp [cF, List.filter_cons, h] <;> omega

lemma cE_cons (r : TestResult) (rest : List TestResult) :
    cE (r :: rest) = (if r.status = "error" then 1 else 0) + cE rest := by
  by_cases h : r.status = "error" <;> simp [cE, List.filter_cons, h] <;> omega

lemma cnt_not_reprFE {rs : List TestResult} {l : Int}
    (h : specLevelRepresented rs l = false) : cntLF rs l = 0 ∧ cntLE rs l = 0 := by
  have h' : ∀ r ∈ rs, ¬(r.level = l) := by
    simpa [specLevelRepresented] using h
  constructor
  · have hnil : rs.filter (fun r => r.level == l && r.status == "fail") = [] :=
      List.filter_eq_nil.mpr (fun a ha => by simp [h' a ha])
    simp [cntLF, hnil]
  · have hnil : rs.filter (fun r => r.level == l && r.status == "error") = [] :=
      List.filter_eq_nil.mpr (fun a ha => by simp [h' a ha])
    simp [cntLE, hnil]

lemma cnt_nonneg_all (rs : List TestResult) (l : Int) :
    0 ≤ cntL rs l ∧ 0 ≤ cntLP rs l ∧ 0 ≤ cntLF rs l ∧ 0 ≤ cntLE rs l := by
  unfold cntL cntLP cntLF cntLE
  refine ⟨?_, ?_, ?_, ?_⟩ <;> exact_mod_cast Nat.zero_le _

lemma c_nonneg_all (rs : List TestResult) :
    0 ≤ cP rs ∧ 0 ≤ cF rs ∧ 0 ≤ cE rs := by
  unfold cP cF cE
  refine ⟨?_, ?_, ?_⟩ <;> exact_mod_cast Nat.zero_le _

/-- Per-level status split when only the three verdict statuses occur. -/
lemma cnt_level_split (rs : List TestResult) (l : Int)
    (h : ∀ r ∈ rs, r.status = "pass" ∨ r.status = "fail" ∨ r.status = "error") :
    cntL rs l = cntLP rs l + cntLF rs l + cntLE rs l := by
  induction rs with
  | nil => simp [cntL, cntLP, cntLF, cntLE]
  | cons r rest ih =>
      have hr := h r (by simp)
      have ih' := ih (fun x hx => h x (by simp [hx]))
      rw [cntL_cons, cntLP_cons, cntLF_cons, cntLE_cons]
      by_cases h1 : r.level = l
      · have e1 : (if r.level = l then (1 : Int) else 0) = 1 := if_pos h1
        rcases hr with hst | hst | hst
        · have e2 : (if r.level = l ∧ r.status = "pass" then (1 : Int) else 0) = 1 :=
            if_pos ⟨h1, hst⟩
          have e3 : (if r.level = l ∧ r.status = "fail" then (1 : Int) else 0) = 0 :=
            if_neg (by intro hc; rw [hst] at hc; exact absurd hc.2 (by decide))
          have e4 : (if r.level = l ∧ r.status = "error" then (1 : Int) else 0) = 0 :=
            if_neg (by intro hc; rw [hst] at hc; exact absurd hc.2 (by decide))
          rw [e1, e2, e3, e4]
          omega
        · have e2 : (if r.level = l ∧ r.status = "pass" then (1 : Int) else 0) = 0 :=
            if_neg (by intro hc; rw [hst] at hc; exact absurd hc.2 (by decide))
          have e3 : (if r.level = l ∧ r.status = "fail" then (1 : Int) else 0) = 1 :=
            if_pos ⟨h1, hst⟩
          have e4 : (if r.level = l ∧ r.status = "error" then (1 : Int) else 0) = 0 :=
            if_neg (by intro hc; rw [hst] at hc; exact absurd hc.2 (by decide))
          rw [e1, e2, e3, e4]
          omega
        · have e2 : (if r.level = l ∧ r.status = "pass" then (1 : Int) else 0) = 0 :=
            if_neg (by intro hc; rw [hst] at hc; exact absurd hc.2 (by decide))
          have e3 : (if r.level = l ∧ r.status = "fail" then (1 : Int) else 0) = 0 :=
            if_neg (by intro hc; rw [hst] at hc; exact absurd hc.2 (by decide))
          have e4 : (if r.level = l ∧ r.status = "error" then (1 : Int) else 0) = 1 :=
            if_pos ⟨h1, hst⟩
          rw [e1, e2, e3, e4]
          omega
      · have e1 : (if r.level = l then (1 : Int) else 0) = 0 := if_neg h1
        have e2 : (if r.level = l ∧ r.status = "pass" then (1 : Int) else 0) = 0 :=
          if_neg (by intro hc; exact h1 hc.1)
        have e3 : (if r.level = l ∧ r.status = "fail" then (1 : Int) else 0) = 0 :=
          if_neg (by intro hc; exact h1 hc.1)
        have e4 : (if r.level = l ∧ r.status = "error" then (1 : Int) else 0) = 0 :=
          if_neg (by intro hc; exact h1 hc.1)
        rw [e1, e2, e3, e4]
        omega

/-- Suite-wide status split when only the three verdict statuses occur. -/
lemma c_split (rs : List TestResult)
    (h : ∀ r ∈ rs, r.status = "pass" ∨ r.status = "fail" ∨ r.status = "error") :
    cP rs + cF rs + cE rs = (rs.length : Int) := by
  induction rs with
  | nil => simp [cP, cF, cE]
  | cons r rest ih =>
      have hr := h r (by simp)
      have ih' := ih (fun x hx => h x (by simp [hx]))
      rw [cP_cons, cF_cons, cE_cons]
      have hlen : (((r :: rest).length : Nat) : Int) = (rest.length : Int) + 1 := by
        push_cast
        simp
      rw [hlen]
      rcases hr with hst | hst | hst
      · have e1 : (if r.status = "pass" then (1 : Int) else 0) = 1 := if_pos hst
        have e2 : (if r.status = "fail" then (1 : Int) else 0) = 0 :=
          if_neg (by rw [hst]; decide)
        have e3 : (if r.status = "error" then (1 : Int) else 0) = 0 :=
          if_neg (by rw [hst]; decide)
        rw [e1, e2, e3]
        omega
      · have e1 : (if r.status = "pass" then (1 : Int) else 0) = 0 :=
          if_neg (by rw [hst]; decide)
        have e2 : (if r.status = "fail" then (1 : Int) else 0) = 1 := if_pos hst
        have e3 : (if r.status = "error" then (1 : Int) else 0) = 0 :=
          if_neg (by rw [hst]; decide)
        rw [e1, e2, e3]
        omega
      · have e1 : (if r.status = "pass" then (1 : Int) else 0) = 0 :=
          if_neg (by rw [hst]; decide)
        have e2 : (if r.status = "fail" then (1 : Int) else 0) = 0 :=
          if_neg (by rw [hst]; decide)
        have e3 : (if r.status = "error" then (1 : Int) else 0) = 1 := if_pos hst
        rw [e1, e2, e3]
        omega

/-- One step of the HTTP accumulation loop: the by-level map gains, at the
result's level, an entry whose counters advance per the verdict; AllPass is
never touched by the accumulation. -/
lemma httpAccum_cons (r : TestResult) (rest : List TestResult)
    (s : ResultsSummary) (f k : List TestResult) :
    ∃ s2 f2 k2, httpAccum (r :: rest) s f k = httpAccum rest s2 f2 k2 ∧
      s2.byLevel = levelMapSet s.byLevel r.level
        { total := (levelMapGetZ s.byLevel r.level).total + 1,
          passed := (levelMapGetZ s.byLevel r.level).passed +
            (if r.status = "pass" then 1 else 0),
          failed := (levelMapGetZ s.byLevel r.level).failed +
            (if r.status = "fail" then 1 else 0),
          skipped := (levelMapGetZ s.byLevel r.level).skipped +
            (if r.status = "skip" then 1 else 0),
          errored := (levelMapGetZ s.byLevel r.level).errored +
            (if r.status = "error" then 1 else 0),
          allPass := (levelMapGetZ s.byLevel r.level).allPass } ∧
      s2.failed = s.failed + (if r.status = "fail" then 1 else 0) ∧
      s2.errored = s.errored + (if r.status = "error" then 1 else 0) := by
  refine ⟨{ s with
      passed := s.passed + (if r.status = "pass" then 1 else 0)
      failed := s.failed + (if r.status = "fail" then 1 else 0)
      skipped := s.skipped + (if r.status = "skip" then 1 else 0)
      errored := s.errored + (if r.status = "error" then 1 else 0)
      byLevel := levelMapSet s.byLevel r.level
        { total := (levelMapGetZ s.byLevel r.level).total + 1,
          passed := (levelMapGetZ s.byLevel r.level).passed +
            (if r.status = "pass" then 1 else 0),
          failed := (levelMapGetZ s.byLevel r.level).failed +
            (if r.status = "fail" then 1 else 0),
          skipped := (levelMapGetZ s.byLevel r.level).skipped +
            (if r.status = "skip" then 1 else 0),
          errored := (levelMapGetZ s.byLevel r.level).errored +
            (if r.status = "error" then 1 else 0),
          allPass := (levelMapGetZ s.byLevel r.level).allPass } },
    (if r.status = "fail" ∨ r.status = "error" then f ++ [r] else f),
    (if r.status = "skip" then k ++ [r] else k), ?_, rfl, rfl, rfl⟩
  by_cases hp : r.status = "pass"
  · simp [httpAccum, hp]
  · by_cases hf2 : r.status = "fail"
    · simp [httpAccum, hp, hf2]
    · by_cases hs : r.status = "skip"
      · simp [httpAccum, hp, hf2, hs]
      · by_cases he : r.status = "error"
        · simp [httpAccum, hp, hf2, hs, he]
        · simp [httpAccum, hp, hf2, hs, he]

/-- The HTTP accumulation characterized per level. -/
lemma httpAccum_entry (rs : List TestResult) :
    ∀ (s : ResultsSummary) (f k : List TestResult) (l : Int),
    (specLevelRepresented rs l = false ∧
       levelMapGet (httpAccum rs s f k).1.byLevel l = levelMapGet s.byLevel l) ∨
    (specLevelRepresented rs l = true ∧
       ∃ ls, levelMapGet (httpAccum rs s f k).1.byLevel l = some ls ∧
         ls.total = (levelMapGetZ s.byLevel l).total + cntL rs l ∧
         ls.failed = (levelMapGetZ s.byLevel l).failed + cntLF rs l ∧
         ls.errored = (levelMapGetZ s.byLevel l).errored + cntLE rs l) := by
  induction rs with
  | nil =>
      intro s f k l
      left
      exact ⟨rfl, rfl⟩
  | cons r rest ih =>
      intro s f k l
      obtain ⟨s2, f2, k2, hstep, hby, -, -⟩ := httpAccum_cons r rest s f k
      rw [hstep]
      by_cases hlv : r.level = l
      · subst hlv
        have hrep : specLevelRepresented (r :: rest) r.level = true := by
          simp [specLevelRepresented]
        obtain ⟨W, hbyW, hWt, hWf, hWe⟩ :
            ∃ W, s2.byLevel = levelMapSet s.byLevel r.level W ∧
              W.total = (levelMapGetZ s.byLevel r.level).total + 1 ∧
              W.failed = (levelMapGetZ s.byLevel r.level).failed +
                (if r.status = "fail" then 1 else 0) ∧
              W.errored = (levelMapGetZ s.byLevel r.level).errored +
                (if r.status = "error" then 1 else 0) :=
          ⟨_, hby, rfl, rfl, rfl⟩
        have hsome : levelMapGet s2.byLevel r.level = some W := by
          rw [hbyW, levelMapGet_set_eq]
        have hgetz : levelMapGetZ s2.byLevel r.level = W := by
          rw [levelMapGetZ, hsome]
          rfl
        rcases ih s2 f2 k2 r.level with ⟨hnr, hget⟩ | ⟨hr, ls, hget, ht, hfd, her⟩
        · obtain ⟨hc0, _⟩ := cnt_not_repr hnr
          obtain ⟨hf0, he0⟩ := cnt_not_reprFE hnr
          right
          refine ⟨hrep, W, by rw [hget, hsome], ?_, ?_, ?_⟩
          · have h1 : (if r.level = r.level then (1 : Int) else 0) = 1 := if_pos rfl
            rw [hWt, cntL_cons, h1, hc0]
            omega
          · by_cases hst : r.status = "fail"
            · have h2 : (if r.level = r.level ∧ r.status = "fail" then (1 : Int) else 0) = 1 :=
                if_pos ⟨rfl, hst⟩
              rw [hWf, cntLF_cons, h2, hf0, if_pos hst]
              omega
            · have h2 : (if r.level = r.level ∧ r.status = "fail" then (1 : Int) else 0) = 0 :=
                if_neg (fun hc => hst hc.2)
              rw [hWf, cntLF_cons, h2, hf0, if_neg hst]
              omega
          · by_cases hst : r.status = "error"
            · have h2 : (if r.level = r.level ∧ r.status = "error" then (1 : Int) else 0) = 1 :=
                if_pos ⟨rfl, hst⟩
              rw [hWe, cntLE_cons, h2, he0, if_pos hst]
              omega
            · have h2 : (if r.level = r.level ∧ r.status = "error" then (1 : Int) else 0) = 0 :=
                if_neg (fun hc => hst hc.2)
              rw [hWe, cntLE_cons, h2, he0, if_neg hst]
              omega
        · right
          refine ⟨hrep, ls, hget, ?_, ?_, ?_⟩
          · have h1 : (if r.level = r.level then (1 : Int) else 0) = 1 := if_pos rfl
            rw [ht, hgetz, hWt, cntL_cons, h1]
            omega
          · by_cases hst : r.status = "fail"
            · have h2 : (if r.level = r.level ∧ r.status = "fail" then (1 : Int) else 0) = 1 :=
                if_pos ⟨rfl, hst⟩
              rw [hfd, hgetz, hWf, cntLF_cons, h2, if_pos hst]
              omega
            · have h2 : (if r.level = r.level ∧ r.status = "fail" then (1 : Int) else 0) = 0 :=
                if_neg (fun hc => hst hc.2)
              rw [hfd, hgetz, hWf, cntLF_cons, h2, if_neg hst]
              omega
          · by_cases hst : r.status = "error"
            · have h2 : (if r.level = r.level ∧ r.status = "error" then (1 : Int) else 0) = 1 :=
                if_pos ⟨rfl, hst⟩
              rw [her, hgetz, hWe, cntLE_cons, h2, if_pos hst]
              omega
            · have h2 : (if r.level = r.level ∧ r.status = "error" then (1 : Int) else 0) = 0 :=
                if_neg (fun hc => hst hc.2)
              rw [her, hgetz, hWe, cntLE_cons, h2, if_neg hst]
              omega
      · have hrep2 : specLevelRepresented (r :: rest) l = specLevelRepresented rest l := by
          simp [specLevelRepresented, hlv]
        have hgets : levelMapGet s2.byLevel l = levelMapGet s.byLevel l := by
          rw [hby, levelMapGet_set_ne _ _ _ _ hlv]
        have hgetz2 : levelMapGetZ s2.byLevel l = levelMapGetZ s.byLevel l := by
          rw [levelMapGetZ, levelMapGetZ, hgets]
        have hc : cntL (r :: rest) l = cntL rest l := by
          rw [cntL_cons, if_neg hlv]
          omega
        have hcf : cntLF (r :: rest) l = cntLF rest l := by
          rw [cntLF_cons, if_neg (fun hcon => hlv hcon.1)]
          omega
        have hce : cntLE (r :: rest) l = cntLE rest l := by
          rw [cntLE_cons, if_neg (fun hcon => hlv hcon.1)]
          omega
        rcases ih s2 f2 k2 l with ⟨hnr, hget⟩ | ⟨hr, ls, hget, ht, hfd, her⟩
        · left
          refine ⟨by rw [hrep2]; exact hnr, by rw [hget, hgets]⟩
        · right
          refine ⟨by rw [hrep2]; exact hr, ls, hget, ?_, ?_, ?_⟩
          · rw [ht, hgetz2, hc]
          · rw [hfd, hgetz2, hcf]
          · rw [her, hgetz2, hce]

/-- Suite-level counters of the HTTP accumulation. -/
lemma httpAccum_scalars (rs : List TestResult) :
    ∀ s f k, (httpAccum rs s f k).1.failed = s.failed + cF rs ∧
      (httpAccum rs s f k).1.errored = s.errored + cE rs := by
  induction rs with
  | nil =>
      intro s f k
      constructor <;> simp [httpAccum, cF, cE]
  | cons r rest ih =>
      intro s f k
      obtain ⟨s2, f2, k2, hstep, -, hfd, herr⟩ := httpAccum_cons r rest s f k
      rw [hstep]
      obtain ⟨ihf, ihe⟩ := ih s2 f2 k2
      constructor
      · rw [ihf, hfd, cF_cons]
        omega
      · rw [ihe, herr, cE_cons]
        omega

/-- Suite-level counters of the gRPC accumulation. -/
lemma grpcAccum_scalars (rs : List TestResult) :
    ∀ s f k, (grpcAccum rs s f k).1.total = s.total + (rs.length : Int) ∧
      (grpcAccum rs s f k).1.passed = s.passed + cP rs := by
  induction rs with
  | nil =>
      intro s f k
      constructor <;> simp [grpcAccum, cP]
  | cons r rest ih =>
      intro s f k
      obtain ⟨s2, f2, k2, hstep, -, htot, hpass⟩ := grpcAccum_cons r rest s f k
      rw [hstep]
      obtain ⟨iht, ihp⟩ := ih s2 f2 k2
      constructor
      · rw [iht, htot, List.length_cons]
        push_cast
        omega
      · rw [ihp, hpass, cP_cons]
        omega

/-- The HTTP by-level map at a level, for suites with only verdict statuses:
absent exactly when unrepresented; a present entry has positive total, and
its recomputed pass condition (no failures and no errors) agrees with the
spec-side "represented and all passed". -/
lemma http_level_facts (results : List TestResult)
    (hstat : ∀ r ∈ results, r.status = "pass" ∨ r.status = "fail" ∨ r.status = "error")
    (l : Int) :
    (specLevelRepresented results l = false →
       levelMapGet
         (httpAccum results { total := (results.length : Int) } [] []).1.byLevel l =
         none) ∧
    (specLevelRepresented results l = true →
       ∃ ls, levelMapGet
           (httpAccum results { total := (results.length : Int) } [] []).1.byLevel l =
           some ls ∧ 0 < ls.total ∧
         ((ls.failed == 0 && ls.errored == 0) = specLevelOK results l)) := by
  rcases httpAccum_entry results { total := (results.length : Int) } [] [] l with
    ⟨hnr, hget⟩ | ⟨hr, ls, hget, ht, hfd, her⟩
  · constructor
    · intro _
      rw [hget]
      rfl
    · intro h
      rw [h] at hnr
      cases hnr
  · constructor
    · intro h
      rw [h] at hr
      cases hr
    · intro _
      refine ⟨ls, hget, ?_, ?_⟩
      · have ht' : ls.total = cntL results l := by
          rw [ht]
          simp [levelMapGetZ, levelMapGet]
        rw [ht']
        exact cnt_repr_pos hr
      · have hfd' : ls.failed = cntLF results l := by
          rw [hfd]
          simp [levelMapGetZ, levelMapGet]
        have her' : ls.errored = cntLE results l := by
          rw [her]
          simp [levelMapGetZ, levelMapGet]
        have hsplit := cnt_level_split results l hstat
        obtain ⟨hgeL, hgeP, hgeF, hgeE⟩ := cnt_nonneg_all results l
        have hple := cntLP_le results l
        rw [hfd', her']
        unfold specLevelOK
        rw [hr]
        simp only [Bool.true_and]
        rcases hAP : specLevelAllPassed results l
        · have hne : ¬(cntLP results l = cntL results l) := by
            intro he
            rw [(cnt_all_passed results l).mpr he] at hAP
            cases hAP
          have : ¬(cntLF results l = 0) ∨ ¬(cntLE results l = 0) := by omega
          rcases this with hbad | hbad
          · rw [beq_eq_false_iff_ne.mpr hbad]
            rfl
          · rw [beq_eq_false_iff_ne.mpr hbad]
            simp
        · have heq := (cnt_all_passed results l).mp hAP
          have hf0 : cntLF results l = 0 := by omega
          have he0 : cntLE results l = 0 := by omega
          rw [hf0, he0]
          rfl

lemma httpConfWalk_gap (lvl : Int) (rest : List Int)
    (m : List (Int × LevelSummary)) (cl : Int)
    (h : levelMapGet m lvl = none) :
    httpConfWalk (lvl :: rest) m cl = httpConfWalk rest m cl := by
  conv_lhs => rw [httpConfWalk]
  simp [h]

lemma httpConfWalk_halt (lvl : Int) (rest : List Int)
    (m : List (Int × LevelSummary)) (cl : Int) (ls : LevelSummary)
    (hget : levelMapGet m lvl = some ls)
    (hbad : (ls.failed == 0 && ls.errored == 0) = false) :
    httpConfWalk (lvl :: rest) m cl =
      (levelMapSet m lvl { ls with allPass := ls.failed == 0 && ls.errored == 0 },
        cl) := by
  conv_lhs => rw [httpConfWalk]
  simp [hget, hbad]

lemma httpConfWalk_step (lvl : Int) (rest : List Int)
    (m : List (Int × LevelSummary)) (cl : Int) (ls : LevelSummary)
    (hget : levelMapGet m lvl = some ls)
    (hok : (ls.failed == 0 && ls.errored == 0) = true) (hpos : 0 < ls.total) :
    httpConfWalk (lvl :: rest) m cl =
      httpConfWalk rest (levelMapSet m lvl { ls with allPass := true }) lvl := by
  conv_lhs => rw [httpConfWalk]
  simp [hget, hok, hpos]

/-- Under verdict-only statuses and downward-closed level representation in
0..4, the HTTP conformance walk also computes the spec-side conformant
level. -/
lemma httpWalk_spec (results : List TestResult)
    (hstat : ∀ r ∈ results, r.status = "pass" ∨ r.status = "fail" ∨ r.status = "error")
    (hdc : ∀ l : Int, 1 ≤ l → l ≤ 4 → specLevelRepresented results l = true →
      specLevelRepresented results (l - 1) = true) :
    (httpConfWalk [0, 1, 2, 3, 4]
        (httpAccum results { total := (results.length : Int) } [] []).1.byLevel
        (-1)).2 =
      specConformantLevel results := by
  have hf := http_level_facts results hstat
  set M0 := (httpAccum results { total := (results.length : Int) } [] []).1.byLevel
    with hM0
  have hOKrepr : ∀ l : Int, specLevelOK results l = true →
      specLevelRepresented results l = true := by
    intro l h
    have h' := h
    unfold specLevelOK at h'
    simp only [Bool.and_eq_true] at h'
    exact h'.1
  have hup : ∀ l : Int, 0 ≤ l → l ≤ 3 → specLevelRepresented results l = false →
      specLevelRepresented results (l + 1) = false := by
    intro l h0 h3 hprev
    rcases hcc : specLevelRepresented results (l + 1)
    · rfl
    · have hx := hdc (l + 1) (by omega) (by omega) hcc
      have he : l + 1 - 1 = l := by omega
      rw [he, hprev] at hx
      cases hx
  by_cases g0 : specLevelOK results 0 = true
  · have hr0 := hOKrepr 0 g0
    obtain ⟨ls0, hg0, hpos0, hbe0⟩ := (hf 0).2 hr0
    rw [httpConfWalk_step 0 [1, 2, 3, 4] M0 (-1) ls0 hg0 (by rw [hbe0, g0]) hpos0]
    set M1 := levelMapSet M0 0 { ls0 with allPass := true } with hM1
    have hgm1 : ∀ l : Int, 0 ≠ l → levelMapGet M1 l = levelMapGet M0 l := by
      intro l hne
      rw [hM1]
      exact levelMapGet_set_ne _ _ _ _ hne
    by_cases g1 : specLevelOK results 1 = true
    · have hr1 := hOKrepr 1 g1
      obtain ⟨ls1, hg1, hpos1, hbe1⟩ := (hf 1).2 hr1
      have hg1' : levelMapGet M1 1 = some ls1 := by
        rw [hgm1 1 (by norm_num)]
        exact hg1
      rw [httpConfWalk_step 1 [2, 3, 4] M1 0 ls1 hg1' (by rw [hbe1, g1]) hpos1]
      set M2 := levelMapSet M1 1 { ls1 with allPass := true } with hM2
      have hgm2 : ∀ l : Int, 0 ≠ l → 1 ≠ l →
          levelMapGet M2 l = levelMapGet M0 l := by
        intro l h0 h1
        rw [hM2, levelMapGet_set_ne _ _ _ _ h1]
        exact hgm1 l h0
      by_cases g2 : specLevelOK results 2 = true
      · have hr2 := hOKrepr 2 g2
        obtain ⟨ls2, hg2, hpos2, hbe2⟩ := (hf 2).2 hr2
        have hg2' : levelMapGet M2 2 = some ls2 := by
          rw [hgm2 2 (by norm_num) (by norm_num)]
          exact hg2
        rw [httpConfWalk_step 2 [3, 4] M2 1 ls2 hg2' (by rw [hbe2, g2]) hpos2]
        set M3 := levelMapSet M2 2 { ls2 with allPass := true } with hM3
        have hgm3 : ∀ l : Int, 0 ≠ l → 1 ≠ l → 2 ≠ l →
            levelMapGet M3 l = levelMapGet M0 l := by
          intro l h0 h1 h2
          rw [hM3, levelMapGet_set_ne _ _ _ _ h2]
          exact hgm2 l h0 h1
        by_cases g3 : specLevelOK results 3 = true
        · have hr3 := hOKrepr 3 g3
          obtain ⟨ls3, hg3, hpos3, hbe3⟩ := (hf 3).2 hr3
          have hg3' : levelMapGet M3 3 = some ls3 := by
            rw [hgm3 3 (by norm_num) (by norm_num) (by norm_num)]
            exact hg3
          rw [httpConfWalk_step 3 [4] M3 2 ls3 hg3' (by rw [hbe3, g3]) hpos3]
          set M4 := levelMapSet M3 3 { ls3 with allPass := true } with hM4
          have hgm4 : ∀ l : Int, 0 ≠ l → 1 ≠ l → 2 ≠ l → 3 ≠ l →
              levelMapGet M4 l = levelMapGet M0 l := by
            intro l h0 h1 h2 h3
            rw [hM4, levelMapGet_set_ne _ _ _ _ h3]
            exact hgm3 l h0 h1 h2
          by_cases g4 : specLevelOK results 4 = true
          · have hr4 := hOKrepr 4 g4
            obtain ⟨ls4, hg4, hpos4, hbe4⟩ := (hf 4).2 hr4
            have hg4' : levelMapGet M4 4 = some ls4 := by
              rw [hgm4 4 (by norm_num) (by norm_num) (by norm_num) (by norm_num)]
              exact hg4
            rw [httpConfWalk_step 4 [] M4 3 ls4 hg4' (by rw [hbe4, g4]) hpos4]
            simp [httpConfWalk, specConformantLevel, g0, g1, g2, g3, g4]
          · have g4f := bool_false_of_not_true g4
            by_cases hr4 : specLevelRepresented results 4 = true
            · obtain ⟨ls4, hg4, hpos4, hbe4⟩ := (hf 4).2 hr4
              have hg4' : levelMapGet M4 4 = some ls4 := by
                rw [hgm4 4 (by norm_num) (by norm_num) (by norm_num) (by norm_num)]
                exact hg4
              rw [httpConfWalk_halt 4 [] M4 3 ls4 hg4' (by rw [hbe4, g4f])]
              simp [specConformantLevel, g0, g1, g2, g3, g4f]
            · have hr4f := bool_false_of_not_true hr4
              rw [httpConfWalk_gap 4 [] M4 3
                (by rw [hgm4 4 (by norm_num) (by norm_num) (by norm_num) (by norm_num)]
                    exact (hf 4).1 hr4f)]
              simp [httpConfWalk, specConformantLevel, g0, g1, g2, g3, g4f]
        · have g3f := bool_false_of_not_true g3
          by_cases hr3 : specLevelRepresented results 3 = true
          · obtain ⟨ls3, hg3, hpos3, hbe3⟩ := (hf 3).2 hr3
            have hg3' : levelMapGet M3 3 = some ls3 := by
              rw [hgm3 3 (by norm_num) (by norm_num) (by norm_num)]
              exact hg3
            rw [httpConfWalk_halt 3 [4] M3 2 ls3 hg3' (by rw [hbe3, g3f])]
            simp [specConformantLevel, g0, g1, g2, g3f]
          · have hr3f := bool_false_of_not_true hr3
            have hr4f : specLevelRepresented results 4 = false := by
              have hx := hup 3 (by norm_num) (by norm_num) hr3f
              norm_num at hx
              exact hx
            rw [httpConfWalk_gap 3 [4] M3 2
              (by rw [hgm3 3 (by norm_num) (by norm_num) (by norm_num)]
                  exact (hf 3).1 hr3f)]
            rw [httpConfWalk_gap 4 [] M3 2
              (by rw [hgm3 4 (by norm_num) (by norm_num) (by norm_num)]
                  exact (hf 4).1 hr4f)]
            simp [httpConfWalk, specConformantLevel, g0, g1, g2, g3f]
      · have g2f := bool_false_of_not_true g2
        by_cases hr2 : specLevelRepresented results 2 = true
        · obtain ⟨ls2, hg2, hpos2, hbe2⟩ := (hf 2).2 hr2
          have hg2' : levelMapGet M2 2 = some ls2 := by
            rw [hgm2 2 (by norm_num) (by norm_num)]
            exact hg2
          rw [httpConfWalk_halt 2 [3, 4] M2 1 ls2 hg2' (by rw [hbe2, g2f])]
          simp [specConformantLevel, g0, g1, g2f]
        · have hr2f := bool_false_of_not_true hr2
          have hr3f : specLevelRepresented results 3 = false := by
            have hx := hup 2 (by norm_num) (by norm_num) hr2f
            norm_num at hx
            exact hx
          have hr4f : specLevelRepresented results 4 = false := by
            have hx := hup 3 (by norm_num) (by norm_num) hr3f
            norm_num at hx
            exact hx
          rw [httpConfWalk_gap 2 [3, 4] M2 1
            (by rw [hgm2 2 (by norm_num) (by norm_num)]
                exact (hf 2).1 hr2f)]
          rw [httpConfWalk_gap 3 [4] M2 1
            (by rw [hgm2 3 (by norm_num) (by norm_num)]
                exact (hf 3).1 hr3f)]
          rw [httpConfWalk_gap 4 [] M2 1
            (by rw [hgm2 4 (by norm_num) (by norm_num)]
                exact (hf 4).1 hr4f)]
          simp [httpConfWalk, specConformantLevel, g0, g1, g2f]
    · have g1f := bool_false_of_not_true g1
      by_cases hr1 : specLevelRepresented results 1 = true
      · obtain ⟨ls1, hg1, hpos1, hbe1⟩ := (hf 1).2 hr1
        have hg1' : levelMapGet M1 1 = some ls1 := by
          rw [hgm1 1 (by norm_num)]
          exact hg1
        rw [httpConfWalk_halt 1 [2, 3, 4] M1 0 ls1 hg1' (by rw [hbe1, g1f])]
        simp [specConformantLevel, g0, g1f]
      · have hr1f := bool_false_of_not_true hr1
        have hr2f : specLevelRepresented results 2 = false := by
          have hx := hup 1 (by norm_num) (by norm_num) hr1f
          norm_num at hx
          exact hx
        have hr3f : specLevelRepresented results 3 = false := by
          have hx := hup 2 (by norm_num) (by norm_num) hr2f
          norm_num at hx
          exact hx
        have hr4f : specLevelRepresented results 4 = false := by
          have hx := hup 3 (by norm_num) (by norm_num) hr3f
          norm_num at hx
          exact hx
        rw [httpConfWalk_gap 1 [2, 3, 4] M1 0
          (by rw [hgm1 1 (by norm_num)]
              exact (hf 1).1 hr1f)]
        rw [httpConfWalk_gap 2 [3, 4] M1 0
          (by rw [hgm1 2 (by norm_num)]
              exact (hf 2).1 hr2f)]
        rw [httpConfWalk_gap 3 [4] M1 0
          (by rw [hgm1 3 (by norm_num)]
              exact (hf 3).1 hr3f)]
        rw [httpConfWalk_gap 4 [] M1 0
          (by rw [hgm1 4 (by norm_num)]
              exact (hf 4).1 hr4f)]
        simp [httpConfWalk, specConformantLevel, g0, g1f]
  · have g0f := bool_false_of_not_true g0
    by_cases hr0 : specLevelRepresented results 0 = true
    · obtain ⟨ls0, hg0, hpos0, hbe0⟩ := (hf 0).2 hr0
      rw [httpConfWalk_halt 0 [1, 2, 3, 4] M0 (-1) ls0 hg0 (by rw [hbe0, g0f])]
      simp [specConformantLevel, g0f]
    · have hr0f := bool_false_of_not_true hr0
      have hr1f : specLevelRepresented results 1 = false := by
        have hx := hup 0 (by norm_num) (by norm_num) hr0f
        norm_num at hx
        exact hx
      have hr2f : specLevelRepresented results 2 = false := by
        have hx := hup 1 (by norm_num) (by norm_num) hr1f
        norm_num at hx
        exact hx
      have hr3f : specLevelRepresented results 3 = false := by
        have hx := hup 2 (by norm_num) (by norm_num) hr2f
        norm_num at hx
        exact hx
      have hr4f : specLevelRepresented results 4 = false := by
        have hx := hup 3 (by norm_num) (by norm_num) hr3f
        norm_num at hx
        exact hx
      rw [httpConfWalk_gap 0 [1, 2, 3, 4] M0 (-1) ((hf 0).1 hr0f)]
      rw [httpConfWalk_gap 1 [2, 3, 4] M0 (-1) ((hf 1).1 hr1f)]
      rw [httpConfWalk_gap 2 [3, 4] M0 (-1) ((hf 2).1 hr2f)]
      rw [httpConfWalk_gap 3 [4] M0 (-1) ((hf 3).1 hr3f)]
      rw [httpConfWalk_gap 4 [] M0 (-1) ((hf 4).1 hr4f)]
      simp [httpConfWalk, specConformantLevel, g0f]

/-- The map output of the HTTP walk when every present entry along the
walked levels passes the recompute check: each such entry has its AllPass
set to true, everything else is untouched. -/
lemma httpConfWalk_map (levels : List Int) :
    ∀ (m : List (Int × LevelSummary)) (cl : Int),
    (∀ lvl ∈ levels, ∀ ls, levelMapGet m lvl = some ls →
       (ls.failed == 0 && ls.errored == 0) = true ∧ 0 < ls.total) →
    ∀ l, levelMapGet (httpConfWalk levels m cl).1 l =
      (if l ∈ levels ∧ (levelMapGet m l).isSome = true then
        (levelMapGet m l).map (fun ls => { ls with allPass := true })
      else levelMapGet m l) := by
  induction levels with
  | nil =>
      intro m cl h l
      simp [httpConfWalk]
  | cons lvl rest ih =>
      intro m cl h l
      cases hm : levelMapGet m lvl with
      | none =>
          rw [httpConfWalk_gap lvl rest m cl hm]
          rw [ih m cl (fun lvl' h' ls hg => h lvl' (List.mem_cons_of_mem _ h') ls hg) l]
          by_cases hl : l = lvl
          · subst hl
            simp [hm]
          · by_cases hlr : l ∈ rest
            · simp [hl, hlr]
            · simp [hl, hlr]
      | some ls =>
          obtain ⟨hok, hpos⟩ := h lvl (List.mem_cons_self _ _) ls hm
          rw [httpConfWalk_step lvl rest m cl ls hm hok hpos]
          have hcond : ∀ lvl' ∈ rest, ∀ ls',
              levelMapGet (levelMapSet m lvl { ls with allPass := true }) lvl' =
                some ls' →
              (ls'.failed == 0 && ls'.errored == 0) = true ∧ 0 < ls'.total := by
            intro lvl' h' ls' hg
            by_cases he : lvl = lvl'
            · subst he
              rw [levelMapGet_set_eq] at hg
              injection hg with he2
              subst he2
              exact ⟨hok, hpos⟩
            · rw [levelMapGet_set_ne _ _ _ _ he] at hg
              exact h lvl' (List.mem_cons_of_mem _ h') ls' hg
          rw [ih _ lvl hcond l]
          by_cases hl : l = lvl
          · subst hl
            rw [levelMapGet_set_eq]
            by_cases hlr : l ∈ rest <;> simp [hm, hlr]
          · rw [levelMapGet_set_ne _ _ _ _ (fun he => hl he.symm)]
            by_cases hlr : l ∈ rest <;> simp [hl, hlr]

/-- Under an all-pass suite within levels 0..4, the walked HTTP map and the
gRPC map carry the same per-level AllPass verdicts. -/
lemma allpass_maps_agree (results : List TestResult)
    (hall : ∀ r ∈ results, r.status = "pass")
    (hlv : ∀ r ∈ results, 0 ≤ r.level ∧ r.level ≤ 4) (l : Int) :
    (levelMapGet
        (httpConfWalk [0, 1, 2, 3, 4]
          (httpAccum results { total := (results.length : Int) } [] []).1.byLevel
          (-1)).1 l).map LevelSummary.allPass =
    (levelMapGet (grpcAccum results {} [] []).1.byLevel l).map
      LevelSummary.allPass := by
  have hstat : ∀ r ∈ results,
      r.status = "pass" ∨ r.status = "fail" ∨ r.status = "error" :=
    fun r hr => Or.inl (hall r hr)
  have hf := http_level_facts results hstat
  have hAP : ∀ lx : Int, specLevelAllPassed results lx = true := by
    intro lx
    unfold specLevelAllPassed
    rw [List.all_eq_true]
    intro r hr
    simp [hall r hr]
  have hcond : ∀ lvl ∈ ([0, 1, 2, 3, 4] : List Int), ∀ ls,
      levelMapGet
        (httpAccum results { total := (results.length : Int) } [] []).1.byLevel
        lvl = some ls →
      (ls.failed == 0 && ls.errored == 0) = true ∧ 0 < ls.total := by
    intro lvl _ ls hg
    by_cases hr : specLevelRepresented results lvl = true
    · obtain ⟨ls', hg', hpos', hbe'⟩ := (hf lvl).2 hr
      rw [hg] at hg'
      injection hg' with he2
      subst he2
      refine ⟨?_, hpos'⟩
      rw [hbe']
      unfold specLevelOK
      rw [hr, hAP lvl]
      rfl
    · rw [(hf lvl).1 (bool_false_of_not_true hr)] at hg
      cases hg
  rw [httpConfWalk_map [0, 1, 2, 3, 4] _ (-1) hcond l]
  by_cases hr : specLevelRepresented results l = true
  · obtain ⟨ls, hg, hpos, hbe⟩ := (hf l).2 hr
    have hOK : specLevelOK results l = true := by
      unfold specLevelOK
      rw [hr, hAP l]
      rfl
    have hmem : l ∈ ([0, 1, 2, 3, 4] : List Int) := by
      obtain ⟨r, hrm, hrl⟩ : ∃ r ∈ results, r.level = l := by
        simpa [specLevelRepresented] using hr
      obtain ⟨hl0, hl4⟩ := hlv r hrm
      rw [hrl] at hl0 hl4
      have hfive : l = 0 ∨ l = 1 ∨ l = 2 ∨ l = 3 ∨ l = 4 := by omega
      rcases hfive with rfl | rfl | rfl | rfl | rfl <;> simp
    rw [if_pos ⟨hmem, by rw [hg]; rfl⟩, hg]
    obtain ⟨ls2, hg2, hap2⟩ := (grpc_level_facts results l).2 hr
    rw [hg2]
    simp [hap2, hOK]
  · have hrf := bool_false_of_not_true hr
    rw [(grpc_level_facts results l).1 hrf]
    simp [(hf l).1 hrf]

/-- A passing result at a level. -/
def passAt (lv : Int) : TestResult := { testId := "t", level := lv, status := "pass" }

/-- C2 counterexample: the claim covers both report aggregators, but the
HTTP runner walks past an unrepresented level (continue), so a passing
level 2 above an empty level 1 raises its conformant level to 2 while the
spec characterization yields 0. -/
theorem C2_counterexample :
    (httpBuildReport [passAt 0, passAt 2] "" 0 0 "").conformantLevel = 2 ∧
    specConformantLevel [passAt 0, passAt 2] = 0 := by
  constructor
  · decide
  · decide

/-- C2 amended to the gRPC adapter (which the claim's walk wording does
describe): for every list of results, the gRPC report's conformant level
equals the largest L in 0..4 such that every level up to L has at least one
test and all of its tests passed, computed by the spec's stop-at-first-gap
walk; the HTTP runner instead skips unrepresented levels (see the
counterexample). -/
theorem C2_grpc_conformant_level (results : List TestResult) (target : String)
    (rl d : Int) (ra : String) :
    (grpcBuildReport results target rl d ra).conformantLevel =
      specConformantLevel results := by
  have h := grpcWalk_spec results
  simpa [grpcBuildReport] using h

/-- A skipped result at level 0. -/
def skipAt0 : TestResult := { testId := "t", level := 0, status := "skip" }

/-- C10 counterexample: on the one-test suite whose only test is skipped,
the two aggregators disagree on all three compared outputs — the HTTP
report is conformant at level 0 with level 0 all-pass, the gRPC report is
non-conformant at level -1 with level 0 not all-pass. -/
theorem C10_counterexample :
    ((httpBuildReport [skipAt0] "" 0 0 "").conformant = true ∧
     (grpcBuildReport [skipAt0] "" 0 0 "").conformant = false) ∧
    ((httpBuildReport [skipAt0] "" 0 0 "").conformantLevel = 0 ∧
     (grpcBuildReport [skipAt0] "" 0 0 "").conformantLevel = -1) ∧
    ((levelMapGet (httpBuildReport [skipAt0] "" 0 0 "").results.byLevel 0).map
        LevelSummary.allPass = some true ∧
     (levelMapGet (grpcBuildReport [skipAt0] "" 0 0 "").results.byLevel 0).map
        LevelSummary.allPass = some false) := by
  decide

/-- C10: the claim fails in general (see the counterexample); the
aggregators agree conditionally: (a) on conformant_level whenever every
status is a verdict (pass, fail or error — no skips, no unknown statuses)
and level representation is downward closed within 0..4; (b) on conformant
whenever the suite is non-empty with verdict-only statuses; (c) on every
per-level all_pass whenever every test passes and every level lies in
0..4. -/
theorem C10_aggregators_agree :
    (∀ (results : List TestResult) (t : String) (rl d : Int) (ra : String),
       (∀ r ∈ results, r.status = "pass" ∨ r.status = "fail" ∨ r.status = "error") →
       (∀ l : Int, 1 ≤ l → l ≤ 4 → specLevelRepresented results l = true →
          specLevelRepresented results (l - 1) = true) →
       (httpBuildReport results t rl d ra).conformantLevel =
         (grpcBuildReport results t rl d ra).conformantLevel)
  ∧ (∀ (results : List TestResult) (t : String) (rl d : Int) (ra : String),
       results ≠ [] →
       (∀ r ∈ results, r.status = "pass" ∨ r.status = "fail" ∨ r.status = "error") →
       (httpBuildReport results t rl d ra).conformant =
         (grpcBuildReport results t rl d ra).conformant)
  ∧ (∀ (results : List TestResult) (t : String) (rl d : Int) (ra : String)
       (l : Int),
       (∀ r ∈ results, r.status = "pass") →
       (∀ r ∈ results, 0 ≤ r.level ∧ r.level ≤ 4) →
       (levelMapGet (httpBuildReport results t rl d ra).results.byLevel l).map
           LevelSummary.allPass =
         (levelMapGet (grpcBuildReport results t rl d ra).results.byLevel l).map
           LevelSummary.allPass) := by
  refine ⟨?_, ?_, ?_⟩
  · intro results t rl d ra hstat hdc
    have hh := httpWalk_spec results hstat hdc
    have hg := grpcWalk_spec results
    simp only [httpBuildReport, grpcBuildReport]
    rw [hh, hg]
  · intro results t rl d ra hne hstat
    obtain ⟨hfl, herl⟩ :=
      httpAccum_scalars results { total := (results.length : Int) } [] []
    obtain ⟨htot, hps⟩ := grpcAccum_scalars results {} [] []
    have hsum := c_split results hstat
    obtain ⟨hp0, hf0, he0⟩ := c_nonneg_all results
    have hlenpos : 0 < (results.length : Int) := by
      have hx : results.length ≠ 0 := fun h => hne (List.length_eq_zero.mp h)
      have hx2 : 0 < results.length := Nat.pos_of_ne_zero hx
      exact_mod_cast hx2
    simp only [httpBuildReport, grpcBuildReport]
    rw [hfl, herl, htot, hps]
    simp only [ResultsSummary.failed, ResultsSummary.errored, ResultsSummary.total,
      ResultsSummary.passed]
    by_cases hOK : cF results = 0 ∧ cE results = 0
    · have hpe : cP results = (results.length : Int) := by omega
      rw [hOK.1, hOK.2, hpe]
      simp [hlenpos]
    · rcases not_and_or.mp hOK with hbad | hbad
      · have hpne : ¬(cP results = (results.length : Int)) := by omega
        have hb1 : (({ total := (results.length : Int) } : ResultsSummary).failed +
            cF results == 0) = false := by
          rw [beq_eq_false_iff_ne]
          intro he
          apply hbad
          simp at he
          omega
        have hb2 : (({} : ResultsSummary).passed + cP results ==
            ({} : ResultsSummary).total + (results.length : Int)) = false := by
          rw [beq_eq_false_iff_ne]
          intro he
          apply hpne
          simp at he
          omega
        rw [hb1, hb2]
        simp
      · have hpne : ¬(cP results = (results.length : Int)) := by omega
        have hb1 : (({ total := (results.length : Int) } : ResultsSummary).errored +
            cE results == 0) = false := by
          rw [beq_eq_false_iff_ne]
          intro he
          apply hbad
          simp at he
          omega
        have hb2 : (({} : ResultsSummary).passed + cP results ==
            ({} : ResultsSummary).total + (results.length : Int)) = false := by
          rw [beq_eq_false_iff_ne]
          intro he
          apply hpne
          simp at he
          omega
        rw [hb1, hb2]
        simp
  · intro results t rl d ra l hall hlv
    have hx := allpass_maps_agree results hall hlv l
    simpa [httpBuildReport, grpcBuildReport] using hx

/-- C10 witness: on the two-test all-pass suite at levels 0 and 1, the
amended agreement applies and both reports agree on conformant level,
conformant flag, and the level-0 and level-7 all-pass entries. -/
theorem C10_witness :
    (httpBuildReport [passAt 0, passAt 1] "" 0 0 "").conformantLevel =
      (grpcBuildReport [passAt 0, passAt 1] "" 0 0 "").conformantLevel ∧
    (httpBuildReport [passAt 0, passAt 1] "" 0 0 "").conformant =
      (grpcBuildReport [passAt 0, passAt 1] "" 0 0 "").conformant ∧
    (levelMapGet (httpBuildReport [passAt 0, passAt 1] "" 0 0 "").results.byLevel
        0).map LevelSummary.allPass =
      (levelMapGet (grpcBuildReport [passAt 0, passAt 1] "" 0 0 "").results.byLevel
        0).map LevelSummary.allPass ∧
    (levelMapGet (httpBuildReport [passAt 0, passAt 1] "" 0 0 "").results.byLevel
        7).map LevelSummary.allPass =
      (levelMapGet (grpcBuildReport [passAt 0, passAt 1] "" 0 0 "").results.byLevel
        7).map LevelSummary.allPass := by
  have hdc : ∀ l : Int, 1 ≤ l → l ≤ 4 →
      specLevelRepresented [passAt 0, passAt 1] l = true →
      specLevelRepresented [passAt 0, passAt 1] (l - 1) = true := by
    intro l h1 h4 hrep
    have hfour : l = 1 ∨ l = 2 ∨ l = 3 ∨ l = 4 := by omega
    rcases hfour with rfl | rfl | rfl | rfl
    · decide
    · exact absurd hrep (by decide)
    · exact absurd hrep (by decide)
    · exact absurd hrep (by decide)
  refine ⟨C10_aggregators_agree.1 [passAt 0, passAt 1] "" 0 0 "" (by decide) hdc,
    C10_aggregators_agree.2.1 [passAt 0, passAt 1] "" 0 0 "" (List.cons_ne_nil _ _) (by decide),
    C10_aggregators_agree.2.2 [passAt 0, passAt 1] "" 0 0 "" 0 (by decide) (by decide),
    C10_aggregators_agree.2.2 [passAt 0, passAt 1] "" 0 0 "" 7 (by decide) (by decide)⟩

/-- C8 witness: the bounds failure at index 5 of a one-element array, the
in-range read at index 0, the soft null for a missing object field, and the
hard failures for a dot-segment on a string and an index on a string. -/
theorem C8_witness :
    goAtoi ['5'] = some 5 ∧
    ResolveJSONPath ('[' :: (['5'] ++ [']'])) (Json.arr [Json.num 7]) =
      Except.error "array index out of bounds" ∧
    ResolveJSONPath ('[' :: (['0'] ++ [']'])) (Json.arr [Json.num 7]) =
      Except.ok (Json.num 7) ∧
    ResolveJSONPath ['q'] (Json.obj [("a", Json.num 1)]) = Except.ok Json.null ∧
    ResolveJSONPath ['q'] (Json.str "s") = Except.error "expected object at segment" ∧
    ResolveJSONPath ('[' :: (['0'] ++ [']'])) (Json.str "s") =
      Except.error "expected array at index" := by
  refine ⟨by decide, ?_, ?_, ?_, ?_, ?_⟩
  · have h := C8_resolver_failure_modes.1 ['5'] 5 [Json.num 7] (by decide)
    rw [h]
    norm_num
  · have h := C8_resolver_failure_modes.1 ['0'] 0 [Json.num 7] (by decide)
    rw [h]
    norm_num
  · exact C8_resolver_failure_modes.2.1 ['q'] [("a", Json.num 1)] (by decide)
      (by decide) rfl
  · exact C8_resolver_failure_modes.2.2.1 ['q'] (Json.str "s") (by decide)
      (by decide) (fun o hq => Json.noConfusion hq)
  · exact C8_resolver_failure_modes.2.2.2 ['0'] 0 (Json.str "s") (by decide)
      (fun a ha => Json.noConfusion ha)

end OJS
